import Mathlib

/-!
Shallow embedding of the `webmentions` Python package (blacklight/webmentions),
covering the entity model (`webmentions/_model.py`), the request parser
(`webmentions/handlers/_parser.py`), the callback wrapper
(`webmentions/handlers/_common.py`) and the database storage adapter
(`webmentions/storage/adapters/db/_model.py`, `_storage.py`).

Conventions used throughout:
* Python `None`-able values become `Option`;
* dynamically typed mf2 property values become the inductive `PyVal`
  (string / dict / list / none / other scalars);
* `datetime` values become `PyDateTime` (calendar fields plus an optional
  UTC offset in minutes; `tz = none` models a timezone-naive datetime);
* library boundaries (`requests`, `BeautifulSoup`, `mf2py`, SQLAlchemy) are
  modelled as data already delivered by the library: an HTTP response carries
  the raw body text together with the parsed tag/mf2 views of it, and the DB
  is a list of rows.
-/

namespace Webmentions

/-- Dynamically typed Python values as they occur in mf2 property maps. -/
inductive PyVal where
  | none
  | str (s : String)
  | int (n : Int)
  | dict (entries : List (String × PyVal))
  | list (items : List PyVal)
  deriving Repr

mutual
/-- Boolean (structural) equality on `PyVal`. -/
def PyVal.beq : PyVal → PyVal → Bool
  | .none, .none => true
  | .str a, .str b => a == b
  | .int a, .int b => a == b
  | .dict a, .dict b => beqEntries a b
  | .list a, .list b => beqItems a b
  | _, _ => false

/-- Equality of dict entry lists. -/
def beqEntries : List (String × PyVal) → List (String × PyVal) → Bool
  | [], [] => true
  | (k1, v1) :: t1, (k2, v2) :: t2 =>
    k1 == k2 && PyVal.beq v1 v2 && beqEntries t1 t2
  | _, _ => false

/-- Equality of value lists. -/
def beqItems : List PyVal → List PyVal → Bool
  | [], [] => true
  | v1 :: t1, v2 :: t2 => PyVal.beq v1 v2 && beqItems t1 t2
  | _, _ => false
end

mutual
theorem PyVal.beq_self : ∀ a : PyVal, PyVal.beq a a = true
  | .none => by simp [PyVal.beq]
  | .str _ => by simp [PyVal.beq]
  | .int _ => by simp [PyVal.beq]
  | .dict d => by simp [PyVal.beq, beqEntries_self d]
  | .list l => by simp [PyVal.beq, beqItems_self l]

theorem beqEntries_self : ∀ l, beqEntries l l = true
  | [] => by simp [beqEntries]
  | (_, v) :: t => by simp [beqEntries, PyVal.beq_self v, beqEntries_self t]

theorem beqItems_self : ∀ l, beqItems l l = true
  | [] => by simp [beqItems]
  | v :: t => by simp [beqItems, PyVal.beq_self v, beqItems_self t]
end

mutual
theorem PyVal.eq_of_beq : ∀ a b : PyVal, PyVal.beq a b = true → a = b
  | .none, .none, _ => rfl
  | .str a, .str b, h => by
    simp only [PyVal.beq, beq_iff_eq] at h
    rw [h]
  | .int a, .int b, h => by
    simp only [PyVal.beq, beq_iff_eq] at h
    rw [h]
  | .dict a, .dict b, h => by
    simp only [PyVal.beq] at h
    rw [eqEntries_of_beq a b h]
  | .list a, .list b, h => by
    simp only [PyVal.beq] at h
    rw [eqItems_of_beq a b h]
  | .none, .str _, h | .none, .int _, h | .none, .dict _, h
  | .none, .list _, h
  | .str _, .none, h | .str _, .int _, h | .str _, .dict _, h
  | .str _, .list _, h
  | .int _, .none, h | .int _, .str _, h | .int _, .dict _, h
  | .int _, .list _, h
  | .dict _, .none, h | .dict _, .str _, h | .dict _, .int _, h
  | .dict _, .list _, h
  | .list _, .none, h | .list _, .str _, h | .list _, .int _, h
  | .list _, .dict _, h => by simp [PyVal.beq] at h

theorem eqEntries_of_beq :
    ∀ a b : List (String × PyVal), beqEntries a b = true → a = b
  | [], [], _ => rfl
  | (k1, v1) :: t1, (k2, v2) :: t2, h => by
    simp only [beqEntries, Bool.and_eq_true, beq_iff_eq] at h
    rw [h.1.1, PyVal.eq_of_beq v1 v2 h.1.2, eqEntries_of_beq t1 t2 h.2]
  | [], _ :: _, h => by simp [beqEntries] at h
  | _ :: _, [], h => by simp [beqEntries] at h

theorem eqItems_of_beq :
    ∀ a b : List PyVal, beqItems a b = true → a = b
  | [], [], _ => rfl
  | v1 :: t1, v2 :: t2, h => by
    simp only [beqItems, Bool.and_eq_true] at h
    rw [PyVal.eq_of_beq v1 v2 h.1, eqItems_of_beq t1 t2 h.2]
  | [], _ :: _, h => by simp [beqItems] at h
  | _ :: _, [], h => by simp [beqItems] at h
end

instance : DecidableEq PyVal := fun a b =>
  if h : PyVal.beq a b then isTrue (PyVal.eq_of_beq a b h)
  else isFalse (fun he => h (he ▸ PyVal.beq_self a))

/-- `d.get(key)`: first binding of `key`, or Python `None` when absent. -/
def dictGet (entries : List (String × PyVal)) (key : String) : PyVal :=
  match entries.find? (fun p => p.fst == key) with
  | some p => p.snd
  | Option.none => PyVal.none

/-- Python truthiness for the `PyVal` fragment we model. -/
def pyTruthy : PyVal → Bool
  | .none => false
  | .str s => !s.isEmpty
  | .int n => n != 0
  | .dict d => !d.isEmpty
  | .list l => !l.isEmpty

/-- `value or default` on `PyVal`s. -/
def pyOr (v default : PyVal) : PyVal := if pyTruthy v then v else default

/-- Truthiness of an optional string (`None` and `""` are falsy). -/
def optStrTruthy : Option String → Bool
  | Option.none => false
  | some s => !s.isEmpty

/-- Python `str.lower()` (character-wise lowercasing). -/
def pyLower (s : String) : String := ⟨s.toList.map Char.toLower⟩

/-- Python `str.strip()`: drop leading and trailing whitespace. -/
def pyStrip (s : String) : String :=
  ⟨((s.toList.dropWhile Char.isWhitespace).reverse.dropWhile
      Char.isWhitespace).reverse⟩

/-- The key loop of `_first_str` on a dict: for `key` in `("value", "url")`,
return `d[key]` when it is a non-empty string. -/
def firstStrFromDict (d : List (String × PyVal)) : Option String :=
  match dictGet d "value" with
  | .str s => if s.isEmpty then
      match dictGet d "url" with
      | .str u => if u.isEmpty then Option.none else some u
      | _ => Option.none
    else some s
  | _ =>
    match dictGet d "url" with
    | .str u => if u.isEmpty then Option.none else some u
    | _ => Option.none

/-- `WebmentionsRequestParser._first_str` (handlers/_parser.py): strings pass
through; dicts use the `value`/`url` loop; a non-empty list inspects its head
(string, or dict through the same loop); everything else maps to `None`. -/
def firstStr : PyVal → Option String
  | .none => Option.none
  | .str s => some s
  | .dict d => firstStrFromDict d
  | .list [] => Option.none
  | .list (v0 :: _) =>
    match v0 with
    | .str s => some s
    | .dict d => firstStrFromDict d
    | _ => Option.none
  | .int _ => Option.none

/-- `WebmentionDirection` (str enum). -/
inductive WebmentionDirection where
  | IN
  | OUT
  deriving Repr, DecidableEq

/-- The `.value` string of a `WebmentionDirection` member. -/
def WebmentionDirection.value : WebmentionDirection → String
  | .IN => "incoming"
  | .OUT => "outgoing"

/-- `WebmentionStatus` (str enum). -/
inductive WebmentionStatus where
  | PENDING
  | CONFIRMED
  | DELETED
  deriving Repr, DecidableEq

/-- The `.value` string of a `WebmentionStatus` member. -/
def WebmentionStatus.value : WebmentionStatus → String
  | .PENDING => "pending"
  | .CONFIRMED => "confirmed"
  | .DELETED => "deleted"

/-- `WebmentionStatus(value)`: recover a member from its value string. -/
def WebmentionStatus.ofValue : String → Option WebmentionStatus
  | "pending" => some .PENDING
  | "confirmed" => some .CONFIRMED
  | "deleted" => some .DELETED
  | _ => Option.none

/-- `WebmentionType` (str enum). -/
inductive WebmentionType where
  | UNKNOWN
  | MENTION
  | REPLY
  | LIKE
  | REPOST
  | BOOKMARK
  | RSVP
  | FOLLOW
  deriving Repr, DecidableEq

/-- The `.value` string of a `WebmentionType` member. -/
def WebmentionType.value : WebmentionType → String
  | .UNKNOWN => "unknown"
  | .MENTION => "mention"
  | .REPLY => "reply"
  | .LIKE => "like"
  | .REPOST => "repost"
  | .BOOKMARK => "bookmark"
  | .RSVP => "rsvp"
  | .FOLLOW => "follow"

/-- The alias table of `WebmentionType.from_raw`, as `aliases.get`. -/
def WebmentionType.aliasLookup : String → Option WebmentionType
  | "in-reply-to" => some .REPLY
  | "reply" => some .REPLY
  | "like-of" => some .LIKE
  | "like" => some .LIKE
  | "repost-of" => some .REPOST
  | "repost" => some .REPOST
  | "bookmark-of" => some .BOOKMARK
  | "bookmark" => some .BOOKMARK
  | "rsvp" => some .RSVP
  | "follow-of" => some .FOLLOW
  | "follow" => some .FOLLOW
  | "mention" => some .MENTION
  | _ => Option.none

/-- `WebmentionType.from_raw` (_model.py): falsy input (`None` or `""`) gives
UNKNOWN; otherwise strip + lowercase and look the result up in the alias
table, defaulting to UNKNOWN. -/
def WebmentionType.fromRaw (raw : Option String) : WebmentionType :=
  match raw with
  | Option.none => .UNKNOWN
  | some s =>
    if s.isEmpty then .UNKNOWN
    else
      match aliasLookup (pyLower (pyStrip s)) with
      | some t => t
      | Option.none => .UNKNOWN

/-- A Python `datetime`: calendar fields plus an optional UTC offset in
minutes (`tz = none` ⇔ `tzinfo is None`, i.e. a naive datetime).
`tz = some 0` is `timezone.utc`. -/
structure PyDateTime where
  year : Nat
  month : Nat
  day : Nat
  hour : Nat
  minute : Nat
  second : Nat
  tz : Option Int
  deriving Repr, DecidableEq

/-- A total order key for comparing (timezone-aware UTC) datetimes. -/
def PyDateTime.rank (d : PyDateTime) : Nat :=
  ((((d.year * 13 + d.month) * 32 + d.day) * 24 + d.hour) * 60 + d.minute) * 60
    + d.second

/-- The decimal digit character for `n % 10`. -/
def digitChar (n : Nat) : Char := Char.ofNat (48 + n % 10)

/-- Two-digit zero-padded decimal (`%02d`), for `n < 100`. -/
def pad2 (n : Nat) : List Char := [digitChar (n / 10), digitChar n]

/-- Four-digit zero-padded decimal (`%04d`), for `n < 10000`. -/
def pad4 (n : Nat) : List Char :=
  [digitChar (n / 1000), digitChar (n / 100), digitChar (n / 10), digitChar n]

/-- The `±HH:MM` suffix of `datetime.isoformat` for an aware datetime;
empty for a naive one. -/
def tzSuffix : Option Int → List Char
  | Option.none => []
  | some off =>
    (if off < 0 then '-' else '+')
      :: (pad2 (off.natAbs / 60) ++ ':' :: pad2 (off.natAbs % 60))

/-- `datetime.isoformat()` restricted to whole-second datetimes:
`YYYY-MM-DDTHH:MM:SS[±HH:MM]`. -/
def PyDateTime.isoformat (d : PyDateTime) : String :=
  ⟨pad4 d.year ++ '-' :: pad2 d.month ++ '-' :: pad2 d.day
    ++ 'T' :: pad2 d.hour ++ ':' :: pad2 d.minute ++ ':' :: pad2 d.second
    ++ tzSuffix d.tz⟩

/-- The numeric value of a decimal digit character, if it is one. -/
def digitVal (c : Char) : Option Nat :=
  if c.isDigit then some (c.toNat - 48) else Option.none

/-- Consume two decimal digits. -/
def parse2 : List Char → Option (Nat × List Char)
  | c1 :: c2 :: rest => do
    let d1 ← digitVal c1
    let d2 ← digitVal c2
    pure (d1 * 10 + d2, rest)
  | _ => Option.none

/-- Consume four decimal digits. -/
def parse4 : List Char → Option (Nat × List Char)
  | c1 :: c2 :: c3 :: c4 :: rest => do
    let d1 ← digitVal c1
    let d2 ← digitVal c2
    let d3 ← digitVal c3
    let d4 ← digitVal c4
    pure (((d1 * 10 + d2) * 10 + d3) * 10 + d4, rest)
  | _ => Option.none

/-- Consume one expected character. -/
def expectChar (c : Char) : List Char → Option (List Char)
  | c' :: rest => if c' = c then some rest else Option.none
  | [] => Option.none

/-- Parse the `±HH:MM` timezone tail (empty tail ⇒ naive). -/
def parseTz : List Char → Option (Option Int)
  | [] => some Option.none
  | sign :: cs =>
    if sign = '+' ∨ sign = '-' then do
      let (h, cs) ← parse2 cs
      let cs ← expectChar ':' cs
      let (m, cs) ← parse2 cs
      match cs with
      | [] =>
        let off : Int := Int.ofNat (h * 60 + m)
        pure (some (if sign = '-' then -off else off))
      | _ => Option.none
    else Option.none

/-- `datetime.fromisoformat` restricted to the
`YYYY-MM-DD[THH:MM[:SS]][±HH:MM]` shapes used by this code base. -/
def fromisoformat (s : String) : Option PyDateTime := do
  let cs := s.toList
  let (y, cs) ← parse4 cs
  let cs ← expectChar '-' cs
  let (mo, cs) ← parse2 cs
  let cs ← expectChar '-' cs
  let (d, cs) ← parse2 cs
  match cs with
  | [] => pure ⟨y, mo, d, 0, 0, 0, Option.none⟩
  | 'T' :: cs => do
    let (h, cs) ← parse2 cs
    let cs ← expectChar ':' cs
    let (mi, cs) ← parse2 cs
    match cs with
    | ':' :: cs => do
      let (sec, cs) ← parse2 cs
      let tz ← parseTz cs
      pure ⟨y, mo, d, h, mi, sec, tz⟩
    | cs => do
      let tz ← parseTz cs
      pure ⟨y, mo, d, h, mi, 0, tz⟩
  | _ => Option.none

/-- Well-formedness needed for the isoformat round trip: every field fits its
zero-padded width and the UTC offset is below a day. -/
def PyDateTime.wf (d : PyDateTime) : Prop :=
  d.year < 10000 ∧ d.month < 100 ∧ d.day < 100 ∧ d.hour < 100 ∧
    d.minute < 100 ∧ d.second < 100 ∧
    (d.tz = Option.none ∨ ∃ o, d.tz = some o ∧ o.natAbs < 1440)

instance (d : PyDateTime) : Decidable d.wf := by
  unfold PyDateTime.wf
  exact inferInstance

theorem digitVal_digitChar (n : Nat) : digitVal (digitChar n) = some (n % 10) := by
  have h : n % 10 < 10 := Nat.mod_lt _ (by norm_num)
  unfold digitChar
  set k := n % 10 with hk
  interval_cases k <;> decide

theorem parse2_pad2 (n : Nat) (h : n < 100) :
    ∀ rest : List Char, parse2 (pad2 n ++ rest) = some (n, rest) := by
  intro rest
  simp [pad2, parse2, digitVal_digitChar]
  omega

theorem parse4_pad4 (n : Nat) (h : n < 10000) :
    ∀ rest : List Char, parse4 (pad4 n ++ rest) = some (n, rest) := by
  intro rest
  simp [pad4, parse4, digitVal_digitChar]
  omega

theorem expectChar_same (c : Char) (rest : List Char) :
    expectChar c (c :: rest) = some rest := by
  simp [expectChar]

theorem parseTz_parts (sign : Char) (h m : Nat) (hh : h < 100) (hm : m < 100) :
    parseTz (sign :: (pad2 h ++ ':' :: pad2 m))
      = if sign = '+' ∨ sign = '-' then
          some (some (if sign = '-' then -(Int.ofNat (h * 60 + m))
            else Int.ofNat (h * 60 + m)))
        else Option.none := by
  have hm2 : parse2 (pad2 m) = some (m, []) := by
    simpa using parse2_pad2 m hm []
  simp [parseTz, parse2_pad2 _ hh, expectChar_same, hm2]

theorem parseTz_tzSuffix (tz : Option Int)
    (h : tz = Option.none ∨ ∃ o, tz = some o ∧ o.natAbs < 1440) :
    parseTz (tzSuffix tz) = some tz := by
  rcases h with h | ⟨o, rfl, ho⟩
  · subst h; rfl
  · have hdiv : o.natAbs / 60 < 100 := by omega
    have hmod : o.natAbs % 60 < 100 := by omega
    have hdm : o.natAbs / 60 * 60 + o.natAbs % 60 = o.natAbs :=
      Nat.div_add_mod' _ _
    unfold tzSuffix
    rw [parseTz_parts _ _ _ hdiv hmod, hdm]
    by_cases hneg : o < 0 <;>
      simp [hneg, Int.natCast_natAbs, abs_of_neg, abs_of_nonneg, le_of_not_lt]

theorem fromisoformat_isoformat (d : PyDateTime) (h : d.wf) :
    fromisoformat d.isoformat = some d := by
  obtain ⟨hy, hmo, hd, hh, hmi, hs, htz⟩ := h
  have h1 : (PyDateTime.isoformat d).toList
      = pad4 d.year ++ '-' :: pad2 d.month ++ '-' :: pad2 d.day
        ++ 'T' :: pad2 d.hour ++ ':' :: pad2 d.minute ++ ':' :: pad2 d.second
        ++ tzSuffix d.tz := rfl
  unfold fromisoformat
  rw [h1]
  simp only [List.append_assoc, List.cons_append]
  rw [parse4_pad4 _ hy]
  simp only [Option.bind_eq_bind', Option.some_bind, expectChar_same,
    parse2_pad2 _ hmo, parse2_pad2 _ hd, parse2_pad2 _ hh, parse2_pad2 _ hmi,
    parse2_pad2 _ hs, parseTz_tzSuffix _ htz]
  rfl

/-- The `Webmention` dataclass (_model.py), with its field defaults. -/
structure Webmention where
  source : String
  target : String
  direction : WebmentionDirection
  title : Option String := Option.none
  excerpt : Option String := Option.none
  content : Option String := Option.none
  author_name : Option String := Option.none
  author_url : Option String := Option.none
  author_photo : Option String := Option.none
  published : Option PyDateTime := Option.none
  status : WebmentionStatus := .CONFIRMED
  mention_type : WebmentionType := .UNKNOWN
  mention_type_raw : Option String := Option.none
  metadata : PyVal := .dict []
  created_at : Option PyDateTime := Option.none
  updated_at : Option PyDateTime := Option.none
  deriving Repr, DecidableEq

/-- `Webmention.to_dict`'s `_normalize` restricted to the `PyVal` fragment
(no datetimes or enums occur inside a `PyVal`, so only the structural cases
of `_normalize` apply). -/
def pyNormalize : PyVal → PyVal
  | .none => .none
  | .str s => .str s
  | .int n => .int n
  | .dict [] => .dict []
  | .dict ((k, v) :: t) =>
    match pyNormalize (.dict t) with
    | .dict t' => .dict ((k, pyNormalize v) :: t')
    | _ => .dict [(k, pyNormalize v)]
  | .list [] => .list []
  | .list (v :: t) =>
    match pyNormalize (.list t) with
    | .list t' => .list (pyNormalize v :: t')
    | _ => .list [pyNormalize v]

theorem pyNormalize_id : ∀ v : PyVal, pyNormalize v = v
  | .none => by simp [pyNormalize]
  | .str _ => by simp [pyNormalize]
  | .int _ => by simp [pyNormalize]
  | .dict [] => by simp [pyNormalize]
  | .dict ((k, v) :: t) => by
    simp [pyNormalize, pyNormalize_id v, pyNormalize_id (.dict t)]
  | .list [] => by simp [pyNormalize]
  | .list (v :: t) => by
    simp [pyNormalize, pyNormalize_id v, pyNormalize_id (.list t)]

/-- The dictionary produced by `Webmention.to_dict`, as a typed record: one
entry per dataclass field, datetimes rendered by `isoformat`, str-enums
rendered by their `.value`. -/
structure WebmentionDict where
  source : String
  target : String
  direction : String
  title : Option String
  excerpt : Option String
  content : Option String
  author_name : Option String
  author_url : Option String
  author_photo : Option String
  published : Option String
  status : String
  mention_type : String
  mention_type_raw : Option String
  metadata : PyVal
  created_at : Option String
  updated_at : Option String
  deriving Repr, DecidableEq

/-- `Webmention.to_dict` (_model.py): `asdict` followed by `_normalize`. -/
def Webmention.to_dict (m : Webmention) : WebmentionDict where
  source := m.source
  target := m.target
  direction := m.direction.value
  title := m.title
  excerpt := m.excerpt
  content := m.content
  author_name := m.author_name
  author_url := m.author_url
  author_photo := m.author_photo
  published := m.published.map PyDateTime.isoformat
  status := m.status.value
  mention_type := m.mention_type.value
  mention_type_raw := m.mention_type_raw
  metadata := pyNormalize m.metadata
  created_at := m.created_at.map PyDateTime.isoformat
  updated_at := m.updated_at.map PyDateTime.isoformat

/-- Errors `Webmention.build` can raise. -/
inductive BuildError where
  | assertionError (msg : String)
  | valueError (msg : String)
  deriving Repr, DecidableEq

instance {e a : Type} [DecidableEq e] [DecidableEq a] :
    DecidableEq (Except e a) := fun x y =>
  match x, y with
  | .ok v, .ok w =>
    if h : v = w then isTrue (by rw [h]) else isFalse (by simp [h])
  | .error v, .error w =>
    if h : v = w then isTrue (by rw [h]) else isFalse (by simp [h])
  | .ok _, .error _ => isFalse (by simp)
  | .error _, .ok _ => isFalse (by simp)

/-- The UTC normalization `_parse_dt` applies to parsed datetimes: a naive
datetime gets `tzinfo = timezone.utc`, an aware one is untouched. -/
def toUTCifNaive (d : PyDateTime) : PyDateTime :=
  if d.tz = Option.none then { d with tz := some 0 } else d

/-- The inputs the nested `_parse_dt` helper of `Webmention.build`
dispatches on: `None`, a `datetime` instance, or a string. (Not modelled:
`int`/`float` inputs, which `datetime.fromtimestamp(value, tz=utc)` turns
into an always-aware datetime.) -/
inductive DtInput where
  | none
  | dt (d : PyDateTime)
  | str (s : String)
  deriving Repr, DecidableEq

/-- The `Option String` fragment of `DtInput` that `to_dict` produces. -/
def DtInput.ofOptStr : Option String → DtInput
  | Option.none => .none
  | some s => .str s

/-- The nested `_parse_dt` helper of `Webmention.build`: `None` gives
`None`; a `datetime` instance is returned unchanged (before any
normalization — a naive one stays naive); a blank string gives `None`; a
non-blank string is ISO-parsed (an unparsable one raises `ValueError`) and
a naive parse result has its tzinfo replaced by UTC. -/
def parse_dt (value : DtInput) : Except BuildError (Option PyDateTime) :=
  match value with
  | .none => .ok Option.none
  | .dt d => .ok (some d)
  | .str s =>
    if (pyStrip s).isEmpty then .ok Option.none
    else
      match fromisoformat s with
      | some dt => .ok (some (toUTCifNaive dt))
      | Option.none => .error (.valueError "Invalid isoformat string")

/-- `Webmention.build` (_model.py) applied to a `to_dict`-shaped dictionary.
The `direction` argument defaults to `IN` at the call sites we verify; it is
explicit here. The `status` override keeps the dictionary's (string) value —
a str-enum compares equal to its value string in Python, so it is recovered
as the member of that value. -/
def Webmention.build (data : WebmentionDict) (direction : WebmentionDirection) :
    Except BuildError Webmention := do
  if data.source.isEmpty then
    throw (.assertionError "source is required")
  else if data.target.isEmpty then
    throw (.assertionError "target is required")
  else
    let mention_type := WebmentionType.fromRaw
      (some (if data.mention_type.isEmpty then WebmentionType.MENTION.value
        else data.mention_type))
    let published ← parse_dt (DtInput.ofOptStr data.published)
    let created_at ← parse_dt (DtInput.ofOptStr data.created_at)
    let updated_at ← parse_dt (DtInput.ofOptStr data.updated_at)
    pure
      { source := data.source
        target := data.target
        direction
        title := data.title
        excerpt := data.excerpt
        content := data.content
        author_name := data.author_name
        author_url := data.author_url
        author_photo := data.author_photo
        published
        status := if data.status.isEmpty then .CONFIRMED
          else (WebmentionStatus.ofValue data.status).getD .CONFIRMED
        mention_type
        mention_type_raw := some mention_type.value
        metadata := data.metadata
        created_at
        updated_at }

/-- One row of the `DbWebmention` table (storage/adapters/db/_model.py).
`mention_type_raw` and `metadata` are not columns; the metadata dict is
stored in the `meta` JSON column. The `published` column is declared
`nullable=False` (_model.py line 33): an in-memory row object may still
hold `None` there (hence `Option PyDateTime`), but committing such a row
raises `IntegrityError` — that constraint is enforced in
`store_webmention` below, at each commit point. -/
structure DbWebmentionRow where
  id : Nat
  source : String
  target : String
  direction : WebmentionDirection
  title : Option String
  excerpt : Option String
  content : Option String
  author_name : Option String
  author_url : Option String
  author_photo : Option String
  published : Option PyDateTime
  status : WebmentionStatus
  mention_type : WebmentionType
  meta : PyVal
  created_at : PyDateTime
  updated_at : PyDateTime
  deriving Repr, DecidableEq

/-- `DbWebmention.from_webmention`: copy the column-named fields, defaulting
`created_at` to `published` and then to `now`, and stamping `updated_at`
with `now`. `id` is the autoincrement value the insert receives. -/
def DbWebmention.from_webmention (m : Webmention) (now : PyDateTime)
    (id : Nat) : DbWebmentionRow where
  id := id
  source := m.source
  target := m.target
  direction := m.direction
  title := m.title
  excerpt := m.excerpt
  content := m.content
  author_name := m.author_name
  author_url := m.author_url
  author_photo := m.author_photo
  published := m.published
  status := m.status
  mention_type := m.mention_type
  meta := pyOr m.metadata (.dict [])
  created_at :=
    match m.created_at with
    | some c => c
    | Option.none =>
      match m.published with
      | some p => p
      | Option.none => now
  updated_at := now

/-- `DbWebmention.to_webmention`: rebuild a `Webmention` from a row. The
dataclass fields not passed (`status`, `mention_type_raw`) take their
defaults. -/
def DbWebmentionRow.to_webmention (r : DbWebmentionRow) : Webmention where
  source := r.source
  target := r.target
  direction := r.direction
  title := r.title
  excerpt := r.excerpt
  content := r.content
  author_name := r.author_name
  author_url := r.author_url
  author_photo := r.author_photo
  published := r.published
  mention_type :=
    if r.mention_type.value.isEmpty then .MENTION
    else WebmentionType.fromRaw (some r.mention_type.value)
  metadata := r.meta
  created_at := some r.created_at
  updated_at := some r.updated_at

/-- The database: its rows plus the next autoincrement id. -/
structure DbState where
  rows : List DbWebmentionRow
  nextId : Nat
  deriving Repr, DecidableEq

/-- The `(source, target, direction)` key filter used by the storage. -/
def keyMatches (r : DbWebmentionRow) (source target : String)
    (direction : WebmentionDirection) : Bool :=
  r.source == source && r.target == target && decide (r.direction = direction)

/-- The update loop of `store_webmention`'s upsert branch: every column
named by a dataclass field is overwritten except `id`, `created_at` and
`updated_at`; then `updated_at := now`. (`metadata` and `mention_type_raw`
are dataclass fields but not column names, so `meta` keeps its old value.) -/
def updateRowFromMention (r : DbWebmentionRow) (m : Webmention)
    (now : PyDateTime) : DbWebmentionRow :=
  { r with
    source := m.source
    target := m.target
    direction := m.direction
    title := m.title
    excerpt := m.excerpt
    content := m.content
    author_name := m.author_name
    author_url := m.author_url
    author_photo := m.author_photo
    published := m.published
    status := m.status
    mention_type := m.mention_type
    updated_at := now }

/-- A commit-time SQLAlchemy `IntegrityError`. -/
inductive StorageError where
  | integrityError
  deriving Repr, DecidableEq

/-- `DbWebmentionsStorage.store_webmention` (_storage.py): the first
insert's commit raises `IntegrityError` when a row with the same `(source,
target, direction)` key exists (the unique constraint) or when
`mention.published` is `None` (the `published` column is `nullable=False`;
all other NOT NULL columns are always populated by `from_webmention`).
Only that first `IntegrityError` is caught (and rolled back); the storage
then queries the existing row by key. If none exists (so the failure was
the NOT NULL violation), it re-adds the same row and the second commit
raises the same `IntegrityError` uncaught. If an existing row is found, it
is updated in place — including `published := mention.published` — and
that commit too raises an uncaught `IntegrityError` when `published` is
`None`, and succeeds otherwise. -/
def store_webmention (st : DbState) (m : Webmention) (now : PyDateTime) :
    Except StorageError DbState :=
  if m.published.isNone
      || st.rows.any (fun r => keyMatches r m.source m.target m.direction) then
    match st.rows.find? (fun r => keyMatches r m.source m.target m.direction)
      with
    | Option.none =>
      if m.published.isNone then .error .integrityError
      else
        .ok { rows := st.rows ++ [DbWebmention.from_webmention m now st.nextId]
              nextId := st.nextId + 1 }
    | some _ =>
      if m.published.isNone then .error .integrityError
      else
        .ok { st with
              rows := st.rows.map (fun r =>
                if keyMatches r m.source m.target m.direction then
                  updateRowFromMention r m now
                else r) }
  else
    .ok { rows := st.rows ++ [DbWebmention.from_webmention m now st.nextId]
          nextId := st.nextId + 1 }

/-- `DbWebmentionsStorage.delete_webmention`: delete all rows with the key
(idempotent). -/
def delete_webmention (st : DbState) (source target : String)
    (direction : WebmentionDirection) : DbState :=
  { st with
    rows := st.rows.filter (fun r => !keyMatches r source target direction) }

/-- `DbWebmentionsStorage.retrieve_webmentions`: all rows whose `target`
equals `resource` with the given direction, as `Webmention`s. -/
def retrieve_webmentions (st : DbState) (resource : String)
    (direction : WebmentionDirection) : List Webmention :=
  (st.rows.filter (fun r =>
    r.target == resource && decide (r.direction = direction))).map
      DbWebmentionRow.to_webmention

/-! ### Request parser (handlers/_parser.py) -/

/-- Python substring test `needle in hay` on char lists. -/
def listIsInfix (needle : List Char) : List Char → Bool
  | [] => needle.isEmpty
  | c :: t => needle.isPrefixOf (c :: t) || listIsInfix needle t

/-- Python `needle in hay` on strings. -/
def strContains (hay needle : String) : Bool :=
  listIsInfix needle.toList hay.toList

/-- `d[k] = v` on an insertion-ordered dict: replace in place or append. -/
def dictSet (d : List (String × PyVal)) (k : String) (v : PyVal) :
    List (String × PyVal) :=
  if d.any (fun p => p.fst == k) then
    d.map (fun p => if p.fst == k then (k, v) else p)
  else d ++ [(k, v)]

/-- `d.setdefault(k, v)`. -/
def dictSetdefault (d : List (String × PyVal)) (k : String) (v : PyVal) :
    List (String × PyVal) :=
  if d.any (fun p => p.fst == k) then d else d ++ [(k, v)]

/-- View a `PyVal` as dict entries (in the parser flow the values this is
applied to are always dicts). -/
def asEntries : PyVal → List (String × PyVal)
  | .dict d => d
  | _ => []

/-- An `Option String` embedded back into a `PyVal` (`None` or the string). -/
def optToPy : Option String → PyVal
  | some s => .str s
  | Option.none => .none

/-- `a or b` on optional strings (`None` and `""` are falsy). -/
def strOrOpt (a b : Option String) : Option String :=
  if optStrTruthy a then a else b

/-- `re.sub(r"\s+", " ", s)`: each maximal whitespace run becomes one
space. The flag records whether the previous character was whitespace. -/
def collapseWsGo : Bool → List Char → List Char
  | _, [] => []
  | prevWs, c :: t =>
    if c.isWhitespace then
      if prevWs then collapseWsGo true t else ' ' :: collapseWsGo true t
    else c :: collapseWsGo false t

/-- `re.sub(r"\s+", " ", s)` on strings. -/
def collapseWs (s : String) : String := ⟨collapseWsGo false s.toList⟩

/-- Python slice `s[:n]` (by code points). -/
def takeCp (n : Nat) (s : String) : String := ⟨s.toList.take n⟩

/-- An mf2 h-entry as selected by `_extract_h_entry`; only its `type` and
`properties` members are read afterwards. -/
structure Mf2Entry where
  type : List String
  properties : List (String × PyVal)
  deriving Repr, DecidableEq

/-- A top-level mf2 item of `mf2py.parse(...)["items"]`; the code inspects
its `type`, `properties` and (one level of) `children`. -/
structure Mf2Item where
  type : List String
  properties : List (String × PyVal)
  children : List Mf2Entry
  deriving Repr, DecidableEq

/-- `_extract_h_entry`: `none` input models `mf2py.parse` raising. First
top-level item typed `h-entry`, else the first so-typed child of any item. -/
def extract_h_entry (items : Option (List Mf2Item)) : Option Mf2Entry :=
  match items with
  | Option.none => Option.none
  | some items =>
    match items.find? (fun it => it.type.contains "h-entry") with
    | some it => some ⟨it.type, it.properties⟩
    | Option.none =>
      ((items.map Mf2Item.children).flatten).find?
        (fun c => c.type.contains "h-entry")

/-- The views of the fetched HTML that `BeautifulSoup` delivers to the
parser: the attribute values of the tags carrying `href`/`src`, the
`content` attribute of each `<meta>` tag the fallbacks look up (`none`
models "tag absent or attribute absent"), and the `<title>` text. -/
structure Soup where
  hrefValues : List String
  srcValues : List String
  metaOgTitle : Option String
  metaTwitterTitle : Option String
  metaAuthor : Option String
  metaPublishedTime : Option String
  metaOgDescription : Option String
  titleText : Option String
  deriving Repr, DecidableEq

/-- A fetched response body: the raw text, the `BeautifulSoup` view (`none`
models the HTML parser raising), and the `mf2py` view (`none` models
`mf2py.parse` raising). -/
structure FetchedBody where
  raw : String
  soup : Option Soup
  mf2Items : Option (List Mf2Item)
  deriving Repr, DecidableEq

/-- Errors escaping `WebmentionsRequestParser.parse`. `gone` is
`WebmentionGone`; modelled from the spec where needed: `_exceptions.py` is
not in the source tree, and per the spec the error carries the source, the
target and a message. `httpStatusError` is `requests.HTTPError` from
`raise_for_status`; `libraryError` is an exception escaping an unguarded
library call. -/
inductive ParseError where
  | valueError (msg : String)
  | gone (source target msg : String)
  | httpStatusError (status : Nat)
  | libraryError (msg : String)
  deriving Repr, DecidableEq

/-- `_source_mentions_target`: an exact `href` value match, else an exact
`src` value match (both only when the HTML parser succeeded), else a raw
substring test. -/
def source_mentions_target (body : FetchedBody) (target_url : String) : Bool :=
  (match body.soup with
   | some soup =>
     soup.hrefValues.contains target_url || soup.srcValues.contains target_url
   | Option.none => false)
  || strContains body.raw target_url

/-- `_extract_author`: resolve the `author` property to
`(name, url, photo)`. -/
def extract_author (props : List (String × PyVal)) :
    Option String × Option String × Option String :=
  let author := dictGet props "author"
  if !pyTruthy author then (Option.none, Option.none, Option.none)
  else
    let author := match author with
      | .list (a0 :: _) => a0
      | v => v
    match author with
    | .str s => (Option.none, some s, Option.none)
    | .dict d =>
      let p := asEntries (pyOr (dictGet d "properties") (.dict []))
      (firstStr (dictGet p "name"), firstStr (dictGet p "url"),
        firstStr (dictGet p "photo"))
    | _ => (Option.none, Option.none, Option.none)

/-- `_extract_location`: normalize the `location` property. -/
def extract_location (props : List (String × PyVal)) : PyVal :=
  let location := dictGet props "location"
  if !pyTruthy location then .none
  else
    let location := match location with
      | .list (l0 :: _) => l0
      | v => v
    match location with
    | .str s => .dict [("name", .none), ("url", .str s)]
    | .dict d =>
      let p := asEntries (pyOr (dictGet d "properties") (.dict []))
      .dict
        [("type", dictGet d "type"),
         ("name", optToPy (firstStr (dictGet p "name"))),
         ("url", optToPy (firstStr (dictGet p "url"))),
         ("latitude", optToPy (firstStr (dictGet p "latitude"))),
         ("longitude", optToPy (firstStr (dictGet p "longitude")))]
    | _ => .none

/-- `_fill_mf2_metadata`: record the raw mf2 arrays and scalar extractions
under `metadata["mf2"]`, in source order. -/
def fill_mf2_metadata (m : Webmention) (entry : Mf2Entry) : Webmention :=
  let props := entry.properties
  let md := dictSetdefault (asEntries m.metadata) "mf2" (.dict [])
  let mf2 := asEntries (dictGet md "mf2")
  let mf2 := dictSet mf2 "type" (.list (entry.type.map PyVal.str))
  let mf2 := dictSet mf2 "url" (optToPy (firstStr (dictGet props "url")))
  let mf2 := dictSet mf2 "uid" (optToPy (firstStr (dictGet props "uid")))
  let mf2 := dictSet mf2 "category" (pyOr (dictGet props "category") (.list []))
  let mf2 := dictSet mf2 "syndication"
    (pyOr (dictGet props "syndication") (.list []))
  let mf2 := dictSet mf2 "rsvp" (optToPy (firstStr (dictGet props "rsvp")))
  let mf2 := dictSet mf2 "bookmark_of"
    (pyOr (dictGet props "bookmark-of") (.list []))
  let mf2 := dictSet mf2 "like_of" (pyOr (dictGet props "like-of") (.list []))
  let mf2 := dictSet mf2 "repost_of"
    (pyOr (dictGet props "repost-of") (.list []))
  let mf2 := dictSet mf2 "in_reply_to"
    (pyOr (dictGet props "in-reply-to") (.list []))
  let mf2 := dictSet mf2 "follow_of"
    (pyOr (dictGet props "follow-of") (.list []))
  let mf2 := dictSet mf2 "quotation_of"
    (pyOr (dictGet props "quotation-of") (.list []))
  let mf2 := dictSet mf2 "photo" (pyOr (dictGet props "photo") (.list []))
  let mf2 := dictSet mf2 "featured"
    (pyOr (dictGet props "featured") (.list []))
  let mf2 := dictSet mf2 "video" (pyOr (dictGet props "video") (.list []))
  let mf2 := dictSet mf2 "audio" (pyOr (dictGet props "audio") (.list []))
  let mf2 := dictSet mf2 "location"
    (pyOr (dictGet props "location") (.list []))
  let mf2 := dictSet mf2 "photo_url"
    (optToPy (firstStr (dictGet props "photo")))
  let mf2 := dictSet mf2 "featured_url"
    (optToPy (firstStr (dictGet props "featured")))
  let mf2 := dictSet mf2 "video_url"
    (optToPy (firstStr (dictGet props "video")))
  let mf2 := dictSet mf2 "audio_url"
    (optToPy (firstStr (dictGet props "audio")))
  let mf2 := dictSet mf2 "location_normalized" (extract_location props)
  { m with metadata := .dict (dictSet md "mf2" (.dict mf2)) }

/-- The `content` extraction shared by `_fill_core_fields_from_entry` and
`_extract_comments`: first content item's `value` (else `html`) when the
item is a dict, the item itself when a string; then `_first_str` as a
fallback while still falsy. `current` is the field's prior value. -/
def extractContentField (current : Option String) (props : List (String × PyVal)) :
    Option String :=
  let c1 :=
    if optStrTruthy current then current
    else
      match dictGet props "content" with
      | .list (c0 :: _) =>
        match c0 with
        | .dict d =>
          match pyOr (dictGet d "value") (dictGet d "html") with
          | .str s => some s
          | _ => current
        | .str s => some s
        | _ => current
      | _ => current
  if optStrTruthy c1 then c1 else firstStr (dictGet props "content")

/-- The `published` computation of `_fill_core_fields_from_entry`: only when
unset, ISO-parse the first `published` string (blank treated as absent, an
invalid one raises `ValueError`, and the parsed value is stored as-is). -/
def corePublished (cur : Option PyDateTime)
    (props : List (String × PyVal)) : Except ParseError (Option PyDateTime) :=
  match cur with
  | some p => .ok (some p)
  | Option.none =>
    match firstStr (dictGet props "published") with
    | some s =>
      if s.isEmpty then .ok Option.none
      else
        match fromisoformat s with
        | some dt => .ok (some dt)
        | Option.none => .error (.valueError "Invalid isoformat string")
    | Option.none => .ok Option.none

/-- `_fill_core_fields_from_entry`: title from `name`, published via
`corePublished`, excerpt from `summary`, content from `content`. -/
def fill_core_fields_from_entry (m : Webmention)
    (props : List (String × PyVal)) : Except ParseError Webmention := do
  let title := strOrOpt m.title (firstStr (dictGet props "name"))
  let published ← corePublished m.published props
  let excerpt :=
    match firstStr (dictGet props "summary") with
    | some s =>
      if !s.isEmpty && !optStrTruthy m.excerpt then some s else m.excerpt
    | Option.none => m.excerpt
  let content := extractContentField m.content props
  pure { m with title, published, excerpt, content }

/-- `_fill_author_from_entry`: only when no author field is set yet. -/
def fill_author_from_entry (m : Webmention)
    (props : List (String × PyVal)) : Webmention :=
  if optStrTruthy m.author_name || optStrTruthy m.author_url ||
      optStrTruthy m.author_photo then m
  else
    let a := extract_author props
    { m with author_name := a.1, author_url := a.2.1, author_photo := a.2.2 }

/-- `any(target_url == x for x in prop if isinstance(x, str))` over
`props.get(k) or []` (mf2 property values are arrays). -/
def targetInProp (props : List (String × PyVal)) (k : String)
    (target_url : String) : Bool :=
  match pyOr (dictGet props k) (.list []) with
  | .list items => items.any (fun x =>
      match x with
      | .str s => target_url == s
      | _ => false)
  | _ => false

/-- `_infer_mention_type_from_entry`: only while the type is UNKNOWN; the
first property matching the target (in source order) names the raw type,
which `from_raw` maps to the enum; `rsvp` and `mention` close the chain. -/
def infer_mention_type_from_entry (m : Webmention)
    (props : List (String × PyVal)) (target_url : String) : Webmention :=
  if m.mention_type ≠ .UNKNOWN then m
  else
    let setFromRaw := fun (raw : String) =>
      { m with
        mention_type_raw := some raw
        mention_type := WebmentionType.fromRaw (some raw) }
    if targetInProp props "like-of" target_url then setFromRaw "like-of"
    else if targetInProp props "repost-of" target_url then setFromRaw "repost-of"
    else if targetInProp props "bookmark-of" target_url then
      setFromRaw "bookmark-of"
    else if targetInProp props "in-reply-to" target_url then
      setFromRaw "in-reply-to"
    else if targetInProp props "follow-of" target_url then setFromRaw "follow-of"
    else if optStrTruthy (firstStr (dictGet props "rsvp")) then setFromRaw "rsvp"
    else setFromRaw "mention"

/-- `_extract_comments`: each string comment becomes `{"url": ...}`, each
dict comment a record of name/url/published/content/author; anything else
is skipped. -/
def extract_comments (comments : PyVal) : List PyVal :=
  match comments with
  | .list items =>
    items.foldr (fun comment acc =>
      match comment with
      | .str s => .dict [("url", .str s)] :: acc
      | .dict d =>
        let cProps := asEntries (pyOr (dictGet d "properties") (.dict []))
        let a := extract_author cProps
        let published := firstStr (dictGet cProps "published")
        let content := extractContentField Option.none cProps
        .dict
          [("type", dictGet d "type"),
           ("name", optToPy (firstStr (dictGet cProps "name"))),
           ("url", optToPy (firstStr (dictGet cProps "url"))),
           ("published", optToPy published),
           ("content", optToPy content),
           ("author", .dict
             [("name", optToPy a.1), ("url", optToPy a.2.1),
              ("photo", optToPy a.2.2)])] :: acc
      | _ => acc) []
  | _ => []

/-- `_fill_comments_from_entry`: store the materialized comments under
`metadata["comments"]` unless already present. -/
def fill_comments_from_entry (m : Webmention)
    (props : List (String × PyVal)) : Webmention :=
  let comments := pyOr (dictGet props "comment") (.list [])
  if pyTruthy comments &&
      !(asEntries m.metadata).any (fun p => p.fst == "comments") then
    { m with
      metadata := .dict (dictSet (asEntries m.metadata) "comments"
        (.list (extract_comments comments))) }
  else m

/-- `_fill_from_h_entry`: the five fill steps in source order. -/
def fill_from_h_entry (m : Webmention) (entry : Mf2Entry)
    (target_url : String) : Except ParseError Webmention := do
  let props := entry.properties
  let m := fill_mf2_metadata m entry
  let m ← fill_core_fields_from_entry m props
  let m := fill_author_from_entry m props
  let m := infer_mention_type_from_entry m props target_url
  pure (fill_comments_from_entry m props)

/-- The excerpt derivation at the end of `_fill_from_html_fallbacks`:
collapse whitespace, strip, truncate to 250 code points, absent if empty. -/
def deriveExcerpt250 (content : String) : Option String :=
  let e := pyStrip (collapseWs content)
  if e.isEmpty then Option.none else some (takeCp 250 e)

/-- The excerpt derivation at the end of `_parse_source_payload` (240 code
points). -/
def deriveExcerpt240 (content : String) : Option String :=
  let e := pyStrip (collapseWs content)
  if e.isEmpty then Option.none else some (takeCp 240 e)

/-- The title fallback of `_fill_from_html_fallbacks`: keep a truthy title,
else `og:title`, else `twitter:title`, else the stripped `<title>` text. -/
def fallbackTitle (cur : Option String) (soup : Soup) : Option String :=
  if optStrTruthy cur then cur
  else if optStrTruthy soup.metaOgTitle then soup.metaOgTitle
  else if optStrTruthy soup.metaTwitterTitle then soup.metaTwitterTitle
  else
    match soup.titleText with
    | some t => some (pyStrip t)
    | Option.none => cur

/-- The author-name fallback: keep a truthy value, else `<meta name=author>`. -/
def fallbackAuthorName (cur : Option String) (soup : Soup) : Option String :=
  if optStrTruthy cur then cur
  else if optStrTruthy soup.metaAuthor then soup.metaAuthor
  else cur

/-- The published fallback: only when unset, ISO-parse the
`article:published_time` meta content (an invalid one raises `ValueError`,
and the parsed value is stored as-is). -/
def fallbackPublished (cur : Option PyDateTime) (soup : Soup) :
    Except ParseError (Option PyDateTime) :=
  match cur with
  | some p => .ok (some p)
  | Option.none =>
    match soup.metaPublishedTime with
    | some s =>
      if s.isEmpty then .ok Option.none
      else
        match fromisoformat s with
        | some dt => .ok (some dt)
        | Option.none => .error (.valueError "Invalid isoformat string")
    | Option.none => .ok Option.none

/-- The content fallback: keep a truthy value, else `og:description`. -/
def fallbackContent (cur : Option String) (soup : Soup) : Option String :=
  if optStrTruthy cur then cur
  else if optStrTruthy soup.metaOgDescription then soup.metaOgDescription
  else cur

/-- `_fill_from_html_fallbacks`: meta/title fallbacks, each additive, then
the 250-code-point excerpt derivation. The `BeautifulSoup` call here is not
guarded by `try`, so a failing HTML parse propagates. Each mutation touches
a distinct field and reads only fields no earlier mutation wrote, so the
sequential assignments collapse into one record update. -/
def fill_from_html_fallbacks (m : Webmention) (body : FetchedBody) :
    Except ParseError Webmention := do
  match body.soup with
  | Option.none => throw (.libraryError "BeautifulSoup failed")
  | some soup =>
    let published ← fallbackPublished m.published soup
    let m :=
      { m with
        title := fallbackTitle m.title soup
        author_name := fallbackAuthorName m.author_name soup
        published
        content := fallbackContent m.content soup }
    pure
      (if optStrTruthy m.content && !optStrTruthy m.excerpt then
        { m with excerpt := deriveExcerpt250 (m.content.getD "") }
      else m)

/-- `_parse_source_payload`, step one: the h-entry fills, skipped when no
h-entry was extracted. -/
def hEntryStage (m : Webmention) (body : FetchedBody) (target_url : String) :
    Except ParseError Webmention :=
  match extract_h_entry body.mf2Items with
  | some entry => fill_from_h_entry m entry target_url
  | Option.none => pure m

/-- `_parse_source_payload` continued: see `hEntryStage` for step one. -/
def parse_source_payload (m : Webmention) (body : FetchedBody)
    (target_url : String) : Except ParseError Webmention := do
  let m ← hEntryStage m body target_url
  let m ← fill_from_html_fallbacks m body
  pure
    (if !optStrTruthy m.excerpt && optStrTruthy m.content then
      { m with excerpt := deriveExcerpt240 (m.content.getD "") }
    else m)

/-- `urlparse(url).netloc` for the common URL shapes: the text after the
first `://` (or a leading `//`) up to the next `/`, `?` or `#`; empty when
the URL has no authority part. -/
def suffixAfterFirst (pat : List Char) : List Char → Option (List Char)
  | [] => Option.none
  | c :: t =>
    if pat.isPrefixOf (c :: t) then some ((c :: t).drop pat.length)
    else suffixAfterFirst pat t

/-- `urlparse(url).netloc` (see `suffixAfterFirst`). -/
def pyNetloc (url : String) : String :=
  let cs := url.toList
  let rest :=
    if ['/', '/'].isPrefixOf cs then some (cs.drop 2)
    else suffixAfterFirst [':', '/', '/'] cs
  match rest with
  | some r => ⟨r.takeWhile (fun c => !(c = '/' || c = '?' || c = '#'))⟩
  | Option.none => ""

/-- An HTTP response as `requests.get` delivers it to `parse`. -/
structure HttpResponse where
  status_code : Nat
  body : FetchedBody
  deriving Repr, DecidableEq

/-- `WebmentionsRequestParser.parse`: argument checks, base-URL domain
check, 404/410 tombstone, `raise_for_status`, the content check, then the
enrichment pipeline over a fresh incoming mention. -/
def parse (base_url : Option String) (source target : Option String)
    (resp : HttpResponse) : Except ParseError Webmention := do
  if !(optStrTruthy source && optStrTruthy target) then
    throw (.valueError "Missing source or target URL")
  else
    let src := source.getD ""
    let tgt := target.getD ""
    if optStrTruthy base_url && pyNetloc tgt != pyNetloc (base_url.getD "") then
      throw (.valueError "Target URL domain does not match server domain")
    else if resp.status_code = 404 || resp.status_code = 410 then
      throw (.gone src tgt "Source URL not found")
    else if 400 ≤ resp.status_code then
      throw (.httpStatusError resp.status_code)
    else if !source_mentions_target resp.body tgt then
      throw (.gone src tgt "Target URL not found in source content")
    else
      parse_source_payload { source := src, target := tgt, direction := .IN }
        resp.body tgt

/-! ### Callback wrapper (handlers/_common.py) -/

/-- One `logger.error` record emitted by the callback wrapper: the mention's
identity (source, target, direction value) and the stringified exception. -/
structure LogRecord where
  source : String
  target : String
  directionValue : String
  excMsg : String
  deriving Repr, DecidableEq

/-- `on_mention_callback_wrapper`: the wrapped callback runs the user
callback (when configured) inside `try/except Exception`; an exception is
turned into a log record. The outer `Except` is the wrapper's own exception
channel — the theorems show it is never used. -/
def on_mention_callback_wrapper
    (callback : Option (Webmention → Except String Unit)) (m : Webmention) :
    Except String (List LogRecord) :=
  match callback with
  | Option.none => .ok []
  | some cb =>
    match cb m with
    | .ok _ => .ok []
    | .error e => .ok [⟨m.source, m.target, m.direction.value, e⟩]

/-- The first-string helper as the claim words it: strings pass through,
dicts use the `value`-then-`url` loop, and a non-empty list RECURSES on its
element 0. (The code does not recurse; this definition witnesses the
difference.) -/
def firstStrClaim : PyVal → Option String
  | .none => Option.none
  | .str s => some s
  | .dict d => firstStrFromDict d
  | .list [] => Option.none
  | .list (v0 :: _) => firstStrClaim v0
  | .int _ => Option.none

/-- The dict rule of the first-string helper, as the amended claim words it:
the first of the `value` and `url` entries that is a non-empty string. -/
def firstNonEmptyStrAt (d : List (String × PyVal)) : List String → Option String
  | [] => Option.none
  | k :: ks =>
    match dictGet d k with
    | .str s => if s.isEmpty then firstNonEmptyStrAt d ks else some s
    | _ => firstNonEmptyStrAt d ks

/-- The first-string helper as amended: strings pass through; dicts yield
their `value` entry when it is a non-empty string, else the `url` entry when
it is a non-empty string, else `None`; a non-empty list applies the string
and dict rules to element 0 only (a nested list yields `None`); anything
else yields `None`. -/
def firstStrAmended : PyVal → Option String
  | .str s => some s
  | .dict d => firstNonEmptyStrAt d ["value", "url"]
  | .list (v0 :: _) =>
    match v0 with
    | .str s => some s
    | .dict d => firstNonEmptyStrAt d ["value", "url"]
    | _ => Option.none
  | _ => Option.none

/-- Two rows with the same `(source, target, direction)` key. -/
def sameKey (a b : DbWebmentionRow) : Prop :=
  a.source = b.source ∧ a.target = b.target ∧ a.direction = b.direction

/-- The table's unique constraint: no two rows share a key. -/
def keysUnique (st : DbState) : Prop :=
  st.rows.Pairwise (fun a b => ¬sameKey a b)

/-! ### Helper lemmas -/

theorem WebmentionType.fromRaw_value (t : WebmentionType) :
    WebmentionType.fromRaw (some t.value) = t := by
  cases t <;> decide

theorem WebmentionStatus.ofValue_value (st : WebmentionStatus) :
    WebmentionStatus.ofValue st.value = some st := by
  cases st <;> rfl

/-! ### Claim theorems -/

/-- C10: `WebmentionType.from_raw` is total and round-trips the enum: every
member is recovered from its own value string, while `None`, the empty
string, and any string whose normalization is outside the alias table give
UNKNOWN (no exception — the function is total by construction). -/
theorem C10_from_raw_total_and_roundtrip :
    (∀ t : WebmentionType, WebmentionType.fromRaw (some t.value) = t) ∧
    WebmentionType.fromRaw Option.none = .UNKNOWN ∧
    WebmentionType.fromRaw (some "") = .UNKNOWN ∧
    (∀ s : String,
      WebmentionType.aliasLookup (pyLower (pyStrip s)) = Option.none →
        WebmentionType.fromRaw (some s) = .UNKNOWN) := by
  refine ⟨WebmentionType.fromRaw_value, rfl, by decide, fun s h => ?_⟩
  unfold WebmentionType.fromRaw
  by_cases he : s.isEmpty <;> simp [he, h]

/-- Witness for C10 at concrete inputs: `"zzz"` normalizes outside the alias
table and maps to UNKNOWN. -/
theorem C10_witness :
    WebmentionType.fromRaw (some "zzz") = .UNKNOWN :=
  C10_from_raw_total_and_roundtrip.2.2.2 "zzz" (by decide)

/-- C9 counterexample: on a nested list the code answers `None`, while the
claimed "recurse on element 0" semantics answers `"a"`. -/
theorem C9_counterexample :
    firstStr (.list [.list [.str "a"]]) = Option.none ∧
    firstStrClaim (.list [.list [.str "a"]]) = some "a" := ⟨rfl, rfl⟩

theorem firstStrFromDict_eq (d : List (String × PyVal)) :
    firstStrFromDict d = firstNonEmptyStrAt d ["value", "url"] := by
  simp only [firstStrFromDict, firstNonEmptyStrAt]

/-- C9 (amended): the first-string helper is total and equals the amended
description: strings pass through; dicts yield the first non-empty string
among their `value` and `url` entries; a non-empty list applies the string
and dict rules to its element 0 without recursing further; every other
input (including `None`, empty lists, and nested lists at element 0) yields
`None`. -/
theorem C9_first_str_amended : ∀ v : PyVal, firstStr v = firstStrAmended v := by
  intro v
  match v with
  | .none => rfl
  | .str s => rfl
  | .int n => rfl
  | .dict d => simpa [firstStr, firstStrAmended] using firstStrFromDict_eq d
  | .list [] => rfl
  | .list (v0 :: t) =>
    cases v0 <;> simp [firstStr, firstStrAmended, firstStrFromDict_eq]

/-- C8: for a configured callback, the wrapped callback always returns
normally (first conjunct: no exception propagates for any callback
behavior), and a raising callback produces exactly one log record carrying
the mention's source, target and direction (second conjunct). -/
theorem C8_callback_exceptions_caught_and_logged :
    (∀ (callback : Option (Webmention → Except String Unit)) (m : Webmention),
      ∃ logs, on_mention_callback_wrapper callback m = .ok logs) ∧
    (∀ (cb : Webmention → Except String Unit) (m : Webmention) (e : String),
      cb m = .error e →
        on_mention_callback_wrapper (some cb) m
          = .ok [⟨m.source, m.target, m.direction.value, e⟩]) := by
  constructor
  · intro callback m
    match callback with
    | Option.none => exact ⟨[], rfl⟩
    | some cb =>
      match h : cb m with
      | .ok _ =>
        exact ⟨[], by simp [on_mention_callback_wrapper, h]⟩
      | .error e =>
        exact ⟨[⟨m.source, m.target, m.direction.value, e⟩],
          by simp [on_mention_callback_wrapper, h]⟩
  · intro cb m e h
    simp [on_mention_callback_wrapper, h]

/-- Witness for C8: a callback raising `"boom"` on a concrete mention is
caught and logged with the mention's identity. -/
theorem C8_witness :
    on_mention_callback_wrapper (some (fun _ => Except.error "boom"))
        { source := "s", target := "t", direction := .IN }
      = .ok [⟨"s", "t", "incoming", "boom"⟩] :=
  C8_callback_exceptions_caught_and_logged.2 _ _ "boom" rfl

/-- C4: ∀ h-entry with type still UNKNOWN, inference checks, in order,
like-of / repost-of / bookmark-of / in-reply-to / follow-of by exact string
equality of the target against the property items; the first hit sets the
corresponding type and its raw name; otherwise a truthy `rsvp` gives RSVP;
otherwise MENTION with raw name `"mention"`. -/
theorem C4_type_inference (m : Webmention) (props : List (String × PyVal))
    (target : String) (h : m.mention_type = .UNKNOWN) :
    (targetInProp props "like-of" target = true →
      (infer_mention_type_from_entry m props target).mention_type = .LIKE ∧
      (infer_mention_type_from_entry m props target).mention_type_raw
        = some "like-of") ∧
    (targetInProp props "like-of" target = false →
     targetInProp props "repost-of" target = true →
      (infer_mention_type_from_entry m props target).mention_type = .REPOST ∧
      (infer_mention_type_from_entry m props target).mention_type_raw
        = some "repost-of") ∧
    (targetInProp props "like-of" target = false →
     targetInProp props "repost-of" target = false →
     targetInProp props "bookmark-of" target = true →
      (infer_mention_type_from_entry m props target).mention_type = .BOOKMARK ∧
      (infer_mention_type_from_entry m props target).mention_type_raw
        = some "bookmark-of") ∧
    (targetInProp props "like-of" target = false →
     targetInProp props "repost-of" target = false →
     targetInProp props "bookmark-of" target = false →
     targetInProp props "in-reply-to" target = true →
      (infer_mention_type_from_entry m props target).mention_type = .REPLY ∧
      (infer_mention_type_from_entry m props target).mention_type_raw
        = some "in-reply-to") ∧
    (targetInProp props "like-of" target = false →
     targetInProp props "repost-of" target = false →
     targetInProp props "bookmark-of" target = false →
     targetInProp props "in-reply-to" target = false →
     targetInProp props "follow-of" target = true →
      (infer_mention_type_from_entry m props target).mention_type = .FOLLOW ∧
      (infer_mention_type_from_entry m props target).mention_type_raw
        = some "follow-of") ∧
    (targetInProp props "like-of" target = false →
     targetInProp props "repost-of" target = false →
     targetInProp props "bookmark-of" target = false →
     targetInProp props "in-reply-to" target = false →
     targetInProp props "follow-of" target = false →
     optStrTruthy (firstStr (dictGet props "rsvp")) = true →
      (infer_mention_type_from_entry m props target).mention_type = .RSVP ∧
      (infer_mention_type_from_entry m props target).mention_type_raw
        = some "rsvp") ∧
    (targetInProp props "like-of" target = false →
     targetInProp props "repost-of" target = false →
     targetInProp props "bookmark-of" target = false →
     targetInProp props "in-reply-to" target = false →
     targetInProp props "follow-of" target = false →
     optStrTruthy (firstStr (dictGet props "rsvp")) = false →
      (infer_mention_type_from_entry m props target).mention_type = .MENTION ∧
      (infer_mention_type_from_entry m props target).mention_type_raw
        = some "mention") := by
  refine ⟨?_, ?_, ?_, ?_, ?_, ?_, ?_⟩ <;> intros <;>
    simp_all [infer_mention_type_from_entry, h] <;>
    decide

/-- Witness for C4: a like-of h-entry pointing at the target yields LIKE
with raw name `"like-of"`. -/
theorem C4_witness :
    (infer_mention_type_from_entry
        { source := "s", target := "T", direction := .IN }
        [("like-of", .list [.str "T"])] "T").mention_type = .LIKE ∧
    (infer_mention_type_from_entry
        { source := "s", target := "T", direction := .IN }
        [("like-of", .list [.str "T"])] "T").mention_type_raw
      = some "like-of" :=
  (C4_type_inference { source := "s", target := "T", direction := .IN }
    [("like-of", .list [.str "T"])] "T" rfl).1 (by decide)

theorem keyMatches_eq {r : DbWebmentionRow} {src tgt : String}
    {dir : WebmentionDirection} (h : keyMatches r src tgt dir = true) :
    r.source = src ∧ r.target = tgt ∧ r.direction = dir := by
  simp only [keyMatches, Bool.and_eq_true, beq_iff_eq, decide_eq_true_eq] at h
  exact ⟨h.1.1, h.1.2, h.2⟩

theorem keysUnique_insert_rows (st : DbState) (m : Webmention)
    (now : PyDateTime) (nid : Nat) (h : keysUnique st)
    (hno : ∀ r ∈ st.rows, ¬keyMatches r m.source m.target m.direction = true) :
    List.Pairwise (fun a b => ¬sameKey a b)
      (st.rows ++ [DbWebmention.from_webmention m now nid]) := by
  unfold keysUnique at h
  simp only [List.pairwise_append, List.pairwise_cons]
  refine ⟨h, by simp, ?_⟩
  intro a ha b hb
  simp only [List.mem_singleton] at hb
  subst hb
  intro hk
  apply hno a ha
  obtain ⟨h1, h2, h3⟩ := hk
  simp only [keyMatches, Bool.and_eq_true, beq_iff_eq, decide_eq_true_eq]
  exact ⟨⟨h1, h2⟩, h3⟩

theorem keysUnique_update_rows (st : DbState) (m : Webmention)
    (now : PyDateTime) (h : keysUnique st) :
    List.Pairwise (fun a b => ¬sameKey a b)
      (st.rows.map (fun r =>
        if keyMatches r m.source m.target m.direction then
          updateRowFromMention r m now
        else r)) := by
  unfold keysUnique at h
  simp only [List.pairwise_map]
  refine h.imp ?_
  intro a b hab hk
  apply hab
  have key_pres : ∀ r : DbWebmentionRow,
      (if keyMatches r m.source m.target m.direction then
        updateRowFromMention r m now else r).source = r.source ∧
      (if keyMatches r m.source m.target m.direction then
        updateRowFromMention r m now else r).target = r.target ∧
      (if keyMatches r m.source m.target m.direction then
        updateRowFromMention r m now else r).direction = r.direction := by
    intro r
    by_cases hr : keyMatches r m.source m.target m.direction
    · obtain ⟨h1, h2, h3⟩ := keyMatches_eq hr
      simp [hr, updateRowFromMention, h1, h2, h3]
    · simp [hr]
  obtain ⟨a1, a2, a3⟩ := key_pres a
  obtain ⟨b1, b2, b3⟩ := key_pres b
  unfold sameKey at hk ⊢
  rw [a1, a2, a3, b1, b2, b3] at hk
  exact hk

theorem store_preserves_keysUnique (st : DbState) (m : Webmention)
    (now : PyDateTime) (st2 : DbState) (h : keysUnique st)
    (hok : store_webmention st m now = .ok st2) :
    keysUnique st2 := by
  unfold store_webmention at hok
  split at hok
  · split at hok
    · rename_i hf
      split at hok
      · exact Except.noConfusion hok
      · have hst2 := Except.ok.inj hok
        subst hst2
        show List.Pairwise (fun a b => ¬sameKey a b)
          (st.rows ++ [DbWebmention.from_webmention m now st.nextId])
        refine keysUnique_insert_rows st m now st.nextId h ?_
        intro r hr
        exact List.find?_eq_none.mp hf r hr
    · split at hok
      · exact Except.noConfusion hok
      · have hst2 := Except.ok.inj hok
        subst hst2
        show List.Pairwise (fun a b => ¬sameKey a b)
          (st.rows.map (fun r =>
            if keyMatches r m.source m.target m.direction then
              updateRowFromMention r m now
            else r))
        exact keysUnique_update_rows st m now h
  · rename_i hcond
    have hst2 := Except.ok.inj hok
    subst hst2
    show List.Pairwise (fun a b => ¬sameKey a b)
      (st.rows ++ [DbWebmention.from_webmention m now st.nextId])
    simp only [Bool.or_eq_true, not_or] at hcond
    refine keysUnique_insert_rows st m now st.nextId h ?_
    intro r hr hk
    exact hcond.2 (List.any_eq_true.mpr ⟨r, hr, hk⟩)

/-- C2 counterexample: a mention with a published time, stored with
`status = PENDING` and `mention_type_raw = "like-of"`, comes back from
retrieval with `status = CONFIRMED` and `mention_type_raw = None` —
`to_webmention` never passes `status`, and `mention_type_raw` is not a
column. -/
theorem C2_counterexample :
    (store_webmention ⟨[], 1⟩
        { source := "s", target := "t", direction := .IN,
          published := some ⟨2026, 1, 1, 0, 0, 0, some 0⟩,
          status := .PENDING, mention_type := .LIKE,
          mention_type_raw := some "like-of" }
        ⟨2026, 1, 2, 0, 0, 0, some 0⟩).map
      (fun st1 => (retrieve_webmentions st1 "t" .IN).map
        (fun r => (r.status, r.mention_type_raw)))
      = .ok [(WebmentionStatus.CONFIRMED, Option.none)] ∧
    ({ source := "s", target := "t", direction := .IN,
       published := some ⟨2026, 1, 1, 0, 0, 0, some 0⟩,
       status := .PENDING, mention_type := .LIKE,
       mention_type_raw := some "like-of" : Webmention }.status,
     { source := "s", target := "t", direction := .IN,
       published := some ⟨2026, 1, 1, 0, 0, 0, some 0⟩,
       status := .PENDING, mention_type := .LIKE,
       mention_type_raw := some "like-of" : Webmention }.mention_type_raw)
      ≠ (WebmentionStatus.CONFIRMED, Option.none) := by
  constructor
  · decide
  · decide

/-- C2 (amended): storing a mention that has a `published` time into an
empty storage succeeds, and retrieving by its target and direction yields
exactly one mention agreeing with the stored one on source, target,
direction, title, excerpt, content, the author fields, published,
mention_type and metadata (a falsy metadata is normalized to the empty
dict); `status` however is reset to CONFIRMED and `mention_type_raw` to
`None`, and the storage-managed timestamps are filled in. A mention with
`published = None` is rejected: on any storage state, `store_webmention`
raises an uncaught `IntegrityError` from the `published` column's NOT NULL
constraint, so nothing is persisted. -/
theorem C2_store_retrieve_roundtrip (m : Webmention) (now : PyDateTime)
    (nid : Nat) (p : PyDateTime) (hp : m.published = some p) :
    (∃ st1 r,
      store_webmention ⟨[], nid⟩ m now = .ok st1 ∧
      retrieve_webmentions st1 m.target m.direction = [r] ∧
      r.source = m.source ∧ r.target = m.target ∧ r.direction = m.direction ∧
      r.title = m.title ∧ r.excerpt = m.excerpt ∧ r.content = m.content ∧
      r.author_name = m.author_name ∧ r.author_url = m.author_url ∧
      r.author_photo = m.author_photo ∧ r.published = m.published ∧
      r.mention_type = m.mention_type ∧
      r.metadata = pyOr m.metadata (.dict []) ∧
      r.status = .CONFIRMED ∧ r.mention_type_raw = Option.none ∧
      r.created_at = some (DbWebmention.from_webmention m now nid).created_at ∧
      r.updated_at = some now) ∧
    (∀ (st : DbState) (m2 : Webmention) (now2 : PyDateTime),
      m2.published = Option.none →
        store_webmention st m2 now2 = .error .integrityError) := by
  constructor
  · refine ⟨⟨[DbWebmention.from_webmention m now nid], nid + 1⟩,
      (DbWebmention.from_webmention m now nid).to_webmention, ?_, ?_, ?_⟩
    · simp [store_webmention, hp]
    · simp [retrieve_webmentions, DbWebmention.from_webmention]
    · refine ⟨rfl, rfl, rfl, rfl, rfl, rfl, rfl, rfl, rfl, rfl, ?_, rfl, rfl,
        rfl, rfl, rfl⟩
      show (if m.mention_type.value.isEmpty then WebmentionType.MENTION
        else WebmentionType.fromRaw (some m.mention_type.value))
          = m.mention_type
      cases m.mention_type <;> decide
  · intro st m2 now2 h2
    unfold store_webmention
    rw [h2]
    simp only [Option.isNone_none, Bool.true_or, if_true]
    cases hf : st.rows.find?
        (fun r => keyMatches r m2.source m2.target m2.direction) <;>
      simp [hf]

/-- Witness for C2: a concrete mention with a published time round-trips
through an empty storage (up to the status reset), and the same mention
without a published time makes `store_webmention` fail with
`IntegrityError`. -/
theorem C2_witness :
    (∃ st1 r,
      store_webmention ⟨[], 1⟩
        { source := "s", target := "t", direction := .IN,
          published := some ⟨2026, 1, 1, 0, 0, 0, some 0⟩ }
        ⟨2026, 1, 2, 0, 0, 0, some 0⟩ = .ok st1 ∧
      retrieve_webmentions st1 "t" .IN = [r] ∧
      r.published = some ⟨2026, 1, 1, 0, 0, 0, some 0⟩ ∧
      r.status = WebmentionStatus.CONFIRMED) ∧
    store_webmention ⟨[], 1⟩
      { source := "s", target := "t", direction := .IN }
      ⟨2026, 1, 2, 0, 0, 0, some 0⟩ = .error .integrityError := by
  obtain ⟨⟨st1, r, hok, hret, _, _, _, _, _, _, _, _, _, hpub, _, _, hstat,
      _, _, _⟩, herr⟩ :=
    C2_store_retrieve_roundtrip
      { source := "s", target := "t", direction := .IN,
        published := some ⟨2026, 1, 1, 0, 0, 0, some 0⟩ }
      ⟨2026, 1, 2, 0, 0, 0, some 0⟩ 1 ⟨2026, 1, 1, 0, 0, 0, some 0⟩ rfl
  exact ⟨⟨st1, r, hok, hret, hpub, hstat⟩,
    herr ⟨[], 1⟩ { source := "s", target := "t", direction := .IN }
      ⟨2026, 1, 2, 0, 0, 0, some 0⟩ rfl⟩

/-- C3: storing two mentions that both carry a `published` time under the
same `(source, target, direction)` key from an empty storage succeeds and
leaves a single row whose `created_at` is the one the first store
computed, whose `updated_at` is the second store's `now` (hence no earlier
than the first store's `updated_at`), and whose descriptive fields are the
second mention's; moreover `store_webmention` preserves key-uniqueness of
the storage whenever it succeeds. -/
theorem C3_upsert_preserves_created_at (m1 m2 : Webmention)
    (now1 now2 : PyDateTime) (nid : Nat) (p1 p2 : PyDateTime)
    (hp1 : m1.published = some p1) (hp2 : m2.published = some p2)
    (hsrc : m2.source = m1.source) (htgt : m2.target = m1.target)
    (hdir : m2.direction = m1.direction)
    (hrank : now1.rank ≤ now2.rank) :
    (∃ st1 st2 row,
      store_webmention ⟨[], nid⟩ m1 now1 = .ok st1 ∧
      store_webmention st1 m2 now2 = .ok st2 ∧
      st2.rows = [row] ∧
      row.created_at = (DbWebmention.from_webmention m1 now1 nid).created_at ∧
      row.updated_at = now2 ∧
      (DbWebmention.from_webmention m1 now1 nid).updated_at.rank
        ≤ row.updated_at.rank ∧
      row.source = m2.source ∧ row.target = m2.target ∧
      row.direction = m2.direction ∧ row.title = m2.title ∧
      row.excerpt = m2.excerpt ∧ row.content = m2.content ∧
      row.author_name = m2.author_name ∧ row.author_url = m2.author_url ∧
      row.author_photo = m2.author_photo ∧ row.published = m2.published ∧
      row.status = m2.status ∧ row.mention_type = m2.mention_type) ∧
    (∀ (st : DbState) (m : Webmention) (now : PyDateTime) (st2 : DbState),
      keysUnique st → store_webmention st m now = .ok st2 →
        keysUnique st2) := by
  constructor
  · refine ⟨⟨[DbWebmention.from_webmention m1 now1 nid], nid + 1⟩,
      ⟨[updateRowFromMention (DbWebmention.from_webmention m1 now1 nid)
          m2 now2], nid + 1⟩,
      updateRowFromMention (DbWebmention.from_webmention m1 now1 nid) m2 now2,
      ?_, ?_, rfl, ?_⟩
    · simp [store_webmention, hp1]
    · simp [store_webmention, keyMatches, DbWebmention.from_webmention,
        hp2, hsrc, htgt, hdir]
    · refine ⟨rfl, rfl, ?_, rfl, rfl, rfl, rfl, rfl, rfl, rfl, rfl, rfl,
        rfl, rfl, rfl⟩
      simpa [updateRowFromMention, DbWebmention.from_webmention] using hrank
  · exact store_preserves_keysUnique

/-- Witness for C3: a concrete double store under one key succeeds, keeps
the first `created_at` (here the first mention's published time) and takes
the second store's `updated_at`. -/
theorem C3_witness :
    ∃ st1 st2 row,
      store_webmention ⟨[], 1⟩
        { source := "s", target := "t", direction := .IN,
          published := some ⟨2026, 1, 1, 0, 0, 0, some 0⟩ }
        ⟨2026, 1, 2, 0, 0, 0, some 0⟩ = .ok st1 ∧
      store_webmention st1
        { source := "s", target := "t", direction := .IN,
          published := some ⟨2026, 1, 4, 0, 0, 0, some 0⟩,
          title := some "new" }
        ⟨2026, 1, 3, 0, 0, 0, some 0⟩ = .ok st2 ∧
      st2.rows = [row] ∧
      row.created_at = ⟨2026, 1, 1, 0, 0, 0, some 0⟩ ∧
      row.updated_at = ⟨2026, 1, 3, 0, 0, 0, some 0⟩ ∧
      row.title = some "new" := by
  obtain ⟨⟨st1, st2, row, hok1, hok2, hrows, hc, hu, _, _, _, _, ht, _⟩, _⟩ :=
    C3_upsert_preserves_created_at
      { source := "s", target := "t", direction := .IN,
        published := some ⟨2026, 1, 1, 0, 0, 0, some 0⟩ }
      { source := "s", target := "t", direction := .IN,
        published := some ⟨2026, 1, 4, 0, 0, 0, some 0⟩,
        title := some "new" }
      ⟨2026, 1, 2, 0, 0, 0, some 0⟩ ⟨2026, 1, 3, 0, 0, 0, some 0⟩ 1
      ⟨2026, 1, 1, 0, 0, 0, some 0⟩ ⟨2026, 1, 4, 0, 0, 0, some 0⟩
      rfl rfl rfl rfl rfl (by decide)
  exact ⟨st1, st2, row, hok1, hok2, hrows, by rw [hc]; decide, hu, ht⟩

/-! ### Lemmas for the build/to_dict round trip -/

theorem exceptOkBind {e a b : Type} (x : a) (f : a → Except e b) :
    (Except.ok x >>= f) = f x := rfl

theorem digitChar_not_ws (n : Nat) : (digitChar n).isWhitespace = false := by
  have h : n % 10 < 10 := Nat.mod_lt _ (by norm_num)
  unfold digitChar
  set k := n % 10 with hk
  interval_cases k <;> decide

theorem noWs_append {l1 l2 : List Char}
    (h1 : ∀ c ∈ l1, c.isWhitespace = false)
    (h2 : ∀ c ∈ l2, c.isWhitespace = false) :
    ∀ c ∈ l1 ++ l2, c.isWhitespace = false := by
  intro c hc
  rcases List.mem_append.mp hc with h | h
  · exact h1 c h
  · exact h2 c h

theorem noWs_cons {a : Char} {l : List Char} (ha : a.isWhitespace = false)
    (hl : ∀ c ∈ l, c.isWhitespace = false) :
    ∀ c ∈ a :: l, c.isWhitespace = false := by
  intro c hc
  rcases List.mem_cons.mp hc with rfl | h
  · exact ha
  · exact hl c h

theorem pad2_noWs (n : Nat) : ∀ c ∈ pad2 n, c.isWhitespace = false := by
  intro c hc
  rcases List.mem_cons.mp hc with rfl | hc
  · exact digitChar_not_ws _
  · rcases List.mem_singleton.mp hc with rfl
    exact digitChar_not_ws _

theorem pad4_noWs (n : Nat) : ∀ c ∈ pad4 n, c.isWhitespace = false := by
  intro c hc
  rcases List.mem_cons.mp hc with rfl | hc
  · exact digitChar_not_ws _
  rcases List.mem_cons.mp hc with rfl | hc
  · exact digitChar_not_ws _
  rcases List.mem_cons.mp hc with rfl | hc
  · exact digitChar_not_ws _
  rcases List.mem_singleton.mp hc with rfl
  exact digitChar_not_ws _

theorem tzSuffix_noWs (tz : Option Int) :
    ∀ c ∈ tzSuffix tz, c.isWhitespace = false := by
  cases tz with
  | none => intro c hc; simp [tzSuffix] at hc
  | some off =>
    refine noWs_cons ?_ (noWs_append (pad2_noWs _) (noWs_cons (by decide)
      (pad2_noWs _)))
    by_cases hneg : off < 0 <;> simp [hneg]

theorem isoformat_noWs (d : PyDateTime) :
    ∀ c ∈ (PyDateTime.isoformat d).toList, c.isWhitespace = false := by
  show ∀ c ∈ pad4 d.year ++ '-' :: pad2 d.month ++ '-' :: pad2 d.day
      ++ 'T' :: pad2 d.hour ++ ':' :: pad2 d.minute ++ ':' :: pad2 d.second
      ++ tzSuffix d.tz, _
  exact noWs_append (noWs_append (noWs_append (noWs_append (noWs_append
    (noWs_append (pad4_noWs _) (noWs_cons (by decide) (pad2_noWs _)))
    (noWs_cons (by decide) (pad2_noWs _)))
    (noWs_cons (by decide) (pad2_noWs _)))
    (noWs_cons (by decide) (pad2_noWs _)))
    (noWs_cons (by decide) (pad2_noWs _)))
    (tzSuffix_noWs _)

theorem dropWhile_of_noWs (l : List Char)
    (h : ∀ c ∈ l, c.isWhitespace = false) :
    l.dropWhile Char.isWhitespace = l := by
  cases l with
  | nil => rfl
  | cons c t =>
    rw [List.dropWhile_cons_of_neg]
    simp [h c (List.mem_cons_self _ _)]

theorem pyStrip_of_noWs (s : String)
    (h : ∀ c ∈ s.toList, c.isWhitespace = false) : pyStrip s = s := by
  cases s with
  | mk data =>
    unfold pyStrip
    show String.mk (List.dropWhile Char.isWhitespace
      (List.dropWhile Char.isWhitespace data).reverse).reverse
        = String.mk data
    rw [dropWhile_of_noWs data h,
      dropWhile_of_noWs data.reverse (fun c hc => h c (List.mem_reverse.mp hc)),
      List.reverse_reverse]

theorem isoformat_toList_ne_nil (d : PyDateTime) :
    (PyDateTime.isoformat d).toList ≠ [] := by
  show pad4 d.year ++ '-' :: pad2 d.month ++ '-' :: pad2 d.day
      ++ 'T' :: pad2 d.hour ++ ':' :: pad2 d.minute ++ ':' :: pad2 d.second
      ++ tzSuffix d.tz ≠ []
  simp [pad4]

theorem pyStrip_isoformat_not_empty (d : PyDateTime) :
    (pyStrip (PyDateTime.isoformat d)).isEmpty = false := by
  rw [pyStrip_of_noWs _ (isoformat_noWs d)]
  by_contra hcon
  rw [Bool.not_eq_false, String.isEmpty_iff] at hcon
  exact isoformat_toList_ne_nil d (by rw [hcon]; rfl)

theorem parse_dt_isoformat (d : PyDateTime) (h : d.wf) :
    parse_dt (.str (PyDateTime.isoformat d)) = .ok (some (toUTCifNaive d)) := by
  have hne := pyStrip_isoformat_not_empty d
  simp [parse_dt, hne, fromisoformat_isoformat d h]

theorem WebmentionType.typeValue_not_empty (t : WebmentionType) :
    t.value.isEmpty = false := by
  cases t <;> decide

theorem WebmentionStatus.statusValue_not_empty (st : WebmentionStatus) :
    st.value.isEmpty = false := by
  cases st <;> decide

/-- C5 counterexample: already for the plain mention
`Webmention(source="s", target="t", direction=OUT)` the round trip fails —
`build` forces `direction` to its argument (IN by default) and rewrites
`mention_type_raw` from `None` to `"unknown"`. -/
theorem C5_counterexample :
    Webmention.build
        (Webmention.to_dict { source := "s", target := "t", direction := .OUT })
        .IN
      ≠ .ok { source := "s", target := "t", direction := .OUT } := by
  decide

/-- C5 (amended): for every mention with non-empty source and target (and
in-range datetime fields), `build(m.to_dict())` equals `m` up to: the
`direction` is the one passed to `build` (IN by default, not read from the
dictionary), `mention_type_raw` is reset to the canonical value string of
`mention_type`, and timezone-naive datetimes are normalized to UTC. -/
theorem C5_build_to_dict_roundtrip (m : Webmention) (dir : WebmentionDirection)
    (hs : m.source.isEmpty = false) (ht : m.target.isEmpty = false)
    (hp : ∀ x, m.published = some x → x.wf)
    (hc : ∀ x, m.created_at = some x → x.wf)
    (hu : ∀ x, m.updated_at = some x → x.wf) :
    Webmention.build m.to_dict dir = .ok
      { m with
        direction := dir
        mention_type_raw := some m.mention_type.value
        published := m.published.map toUTCifNaive
        created_at := m.created_at.map toUTCifNaive
        updated_at := m.updated_at.map toUTCifNaive } := by
  have hpub : parse_dt (DtInput.ofOptStr (m.published.map PyDateTime.isoformat))
      = .ok (m.published.map toUTCifNaive) := by
    cases hx : m.published with
    | none => rfl
    | some x => simpa [DtInput.ofOptStr] using parse_dt_isoformat x (hp x hx)
  have hcre :
      parse_dt (DtInput.ofOptStr (m.created_at.map PyDateTime.isoformat))
      = .ok (m.created_at.map toUTCifNaive) := by
    cases hx : m.created_at with
    | none => rfl
    | some x => simpa [DtInput.ofOptStr] using parse_dt_isoformat x (hc x hx)
  have hupd :
      parse_dt (DtInput.ofOptStr (m.updated_at.map PyDateTime.isoformat))
      = .ok (m.updated_at.map toUTCifNaive) := by
    cases hx : m.updated_at with
    | none => rfl
    | some x => simpa [DtInput.ofOptStr] using parse_dt_isoformat x (hu x hx)
  unfold Webmention.build Webmention.to_dict
  simp only [hs, ht, WebmentionType.typeValue_not_empty, Bool.false_eq_true,
    if_false, hpub, hcre, hupd, pyNormalize_id]
  simp only [exceptOkBind]
  simp [WebmentionType.fromRaw_value, WebmentionStatus.statusValue_not_empty,
    WebmentionStatus.ofValue_value]
  rfl

/-- Witness for C5: a concrete mention with a naive published timestamp
round-trips with the published timestamp marked UTC and `mention_type_raw`
set to `"unknown"`. -/
theorem C5_witness :
    Webmention.build
        (Webmention.to_dict
          { source := "s", target := "t", direction := .IN,
            published := some ⟨2026, 2, 7, 1, 2, 3, Option.none⟩ })
        .IN
      = .ok
        { source := "s", target := "t", direction := .IN,
          mention_type_raw := some "unknown",
          published := some ⟨2026, 2, 7, 1, 2, 3, some 0⟩ } := by
  have h := C5_build_to_dict_roundtrip
    { source := "s", target := "t", direction := .IN,
      published := some ⟨2026, 2, 7, 1, 2, 3, Option.none⟩ } .IN rfl rfl
    (by intro x hx; simp at hx; subst hx; decide)
    (by intro x hx; simp at hx)
    (by intro x hx; simp at hx)
  exact h

/-! ### Lemmas for the excerpt derivation -/

theorem mk_isEmpty_false {l : List Char} (h : l ≠ []) :
    (String.mk l).isEmpty = false := by
  by_contra hcon
  rw [Bool.not_eq_false, String.isEmpty_iff] at hcon
  exact h (by simpa [String.ext_iff] using hcon)

theorem takeCp_length (n : Nat) (s : String) :
    (takeCp n s).toList.length ≤ n := by
  show (s.toList.take n).length ≤ n
  simp [List.length_take]

theorem deriveExcerpt250_some {c e : String}
    (h : deriveExcerpt250 c = some e) :
    e = takeCp 250 (pyStrip (collapseWs c)) ∧ e.isEmpty = false := by
  unfold deriveExcerpt250 at h
  by_cases hc : (pyStrip (collapseWs c)).isEmpty
  · simp [hc] at h
  · simp only [hc, Bool.false_eq_true, if_false, Option.some.injEq] at h
    subst h
    refine ⟨rfl, ?_⟩
    cases hl : (pyStrip (collapseWs c)).toList with
    | nil =>
      exfalso
      cases hs : pyStrip (collapseWs c) with
      | mk data =>
        rw [hs] at hl
        simp only [String.toList] at hl
        rw [hl] at hs
        rw [hs] at hc
        exact hc rfl
    | cons a t =>
      apply mk_isEmpty_false
      show (pyStrip (collapseWs c)).toList.take 250 ≠ []
      rw [hl]
      simp

theorem deriveExcerpt250_none {c : String}
    (h : deriveExcerpt250 c = Option.none) :
    (pyStrip (collapseWs c)).isEmpty = true ∧
      deriveExcerpt240 c = Option.none := by
  unfold deriveExcerpt250 at h
  by_cases hc : (pyStrip (collapseWs c)).isEmpty
  · exact ⟨hc, by simp [deriveExcerpt240, hc]⟩
  · simp [hc] at h

theorem optStrTruthy_none : optStrTruthy Option.none = false := rfl

theorem optStrTruthy_some (s : String) : optStrTruthy (some s) = !s.isEmpty :=
  rfl

/-- C6: whenever the parser derives an excerpt from content (no excerpt from
the mf2 summary step, truthy content at the end), the final excerpt is the
content with whitespace runs collapsed, stripped, truncated to 250 code
points (the HTML-fallback-step truncation; the later 240-code-point site
only reproduces the absent case), and absent when the collapsed, stripped
string is empty; any derived excerpt has at most 250 code points. -/
theorem C6_excerpt_derivation (m0 : Webmention) (body : FetchedBody)
    (tgt : String) (m1 mf : Webmention)
    (h1 : hEntryStage m0 body tgt = .ok m1)
    (h2 : m1.excerpt = Option.none)
    (h3 : parse_source_payload m0 body tgt = .ok mf)
    (h4 : optStrTruthy mf.content = true) :
    mf.excerpt = deriveExcerpt250 (mf.content.getD "") ∧
    ∀ e, mf.excerpt = some e →
      e = takeCp 250 (pyStrip (collapseWs (mf.content.getD ""))) ∧
      e.toList.length ≤ 250 := by
  unfold parse_source_payload at h3
  rw [h1, exceptOkBind] at h3
  cases hfb : fill_from_html_fallbacks m1 body with
  | error err =>
    rw [hfb] at h3
    exact absurd h3 (by simp [Bind.bind, Except.bind])
  | ok m2 =>
    rw [hfb, exceptOkBind] at h3
    replace h3 := Except.ok.inj h3
    unfold fill_from_html_fallbacks at hfb
    cases hsoup : body.soup with
    | none =>
      rw [hsoup] at hfb
      exact Except.noConfusion hfb
    | some soup =>
      rw [hsoup] at hfb
      change (fallbackPublished m1.published soup >>= _) = Except.ok m2 at hfb
      cases hpb : fallbackPublished m1.published soup with
      | error err =>
        rw [hpb] at hfb
        exact Except.noConfusion hfb
      | ok pub =>
        rw [hpb, exceptOkBind] at hfb
        replace hfb := Except.ok.inj hfb
        simp only [h2] at hfb
        by_cases hcontent : optStrTruthy (fallbackContent m1.content soup)
        case neg =>
          rw [if_neg (by simp [optStrTruthy_none, hcontent])] at hfb
          subst hfb
          rw [if_neg (by simp [optStrTruthy_none, hcontent])] at h3
          subst h3
          exact absurd h4 (by simp [hcontent])
        case pos =>
          rw [if_pos (by simp [optStrTruthy_none, hcontent])] at hfb
          subst hfb
          cases hder : deriveExcerpt250
              ((fallbackContent m1.content soup).getD "") with
          | some e =>
            obtain ⟨he1, he2⟩ := deriveExcerpt250_some hder
            rw [if_neg (by simp [hder, optStrTruthy_some, he2])] at h3
            subst h3
            refine ⟨hder.symm ▸ rfl, ?_⟩
            intro e2 he3
            have he4 : deriveExcerpt250
                ((fallbackContent m1.content soup).getD "") = some e2 := he3
            obtain ⟨hb1, _⟩ := deriveExcerpt250_some he4
            exact ⟨hb1, hb1 ▸ takeCp_length _ _⟩
          | none =>
            obtain ⟨hempty, h240⟩ := deriveExcerpt250_none hder
            rw [if_pos (by simp [hder, optStrTruthy_none, hcontent])] at h3
            subst h3
            constructor
            · show deriveExcerpt240 ((fallbackContent m1.content soup).getD "")
                = deriveExcerpt250 ((fallbackContent m1.content soup).getD "")
              rw [h240, hder]
            · intro e2 he3
              have he4 : deriveExcerpt240
                  ((fallbackContent m1.content soup).getD "") = some e2 := he3
              rw [h240] at he4
              exact Option.noConfusion he4

/-- Witness for C6: a body whose only metadata is
`og:description = "hello  world"` makes the parser derive the excerpt
`"hello world"` — whitespace collapsed, within 250 code points. -/
theorem C6_witness :
    some "hello world" = deriveExcerpt250 "hello  world" ∧
    "hello world".toList.length ≤ 250 := by
  have h := C6_excerpt_derivation
    { source := "s", target := "t", direction := .IN }
    ⟨"", some ⟨[], [], Option.none, Option.none, Option.none, Option.none,
      some "hello  world", Option.none⟩, some []⟩
    "t"
    { source := "s", target := "t", direction := .IN }
    { source := "s", target := "t", direction := .IN,
      excerpt := some "hello world", content := some "hello  world" }
    rfl rfl (by decide) (by decide)
  exact ⟨h.1, (h.2 "hello world" rfl).2⟩

/-- C7 counterexample: an h-entry `published` of `"2026-02-07T01:02:03"`
(no timezone) is accepted by the mf2 parsing path, and the resulting
datetime is still naive — it does not carry the UTC timezone. -/
theorem C7_counterexample :
    fill_core_fields_from_entry
        { source := "s", target := "t", direction := .IN }
        [("published", .list [.str "2026-02-07T01:02:03"])]
      = .ok
        { source := "s", target := "t", direction := .IN,
          published := some ⟨2026, 2, 7, 1, 2, 3, Option.none⟩ } ∧
    (⟨2026, 2, 7, 1, 2, 3, Option.none⟩ : PyDateTime).tz ≠ some 0 := by
  constructor
  · decide
  · decide

/-- C7 (amended): only `Webmention.build` interprets a timezone-naive
`published` STRING as UTC — its `_parse_dt` parses a non-blank string with
`fromisoformat` and replaces a missing tzinfo with UTC, so the result of the
string path is always timezone-aware (first conjunct). A `datetime` instance
passed to `_parse_dt` is returned unchanged before that normalization step,
so a naive datetime input stays naive (second conjunct). The parser's mf2
path (third conjunct) and HTML meta fallback path (fourth conjunct) store
the parsed datetime as-is, so a naive value stays naive there too. -/
theorem C7_published_normalization :
    (∀ (s : String) (d : PyDateTime),
      (pyStrip s).isEmpty = false → fromisoformat s = some d →
        parse_dt (.str s) = .ok (some (toUTCifNaive d)) ∧
        (toUTCifNaive d).tz ≠ Option.none) ∧
    (∀ (d : PyDateTime), parse_dt (.dt d) = .ok (some d)) ∧
    (∀ (m : Webmention) (props : List (String × PyVal)) (s : String)
        (d : PyDateTime),
      m.published = Option.none →
      firstStr (dictGet props "published") = some s →
      s.isEmpty = false → fromisoformat s = some d →
        ∃ m2, fill_core_fields_from_entry m props = .ok m2 ∧
          m2.published = some d) ∧
    (∀ (cur : Option PyDateTime) (soup : Soup) (s : String) (d : PyDateTime),
      cur = Option.none → soup.metaPublishedTime = some s →
      s.isEmpty = false → fromisoformat s = some d →
        fallbackPublished cur soup = .ok (some d)) := by
  refine ⟨?_, ?_, ?_, ?_⟩
  · intro s d hne hiso
    constructor
    · simp [parse_dt, hne, hiso]
    · unfold toUTCifNaive
      cases htz : d.tz <;> simp [htz]
  · intro d
    rfl
  · intro m props s d hpub hfs hne hiso
    refine ⟨{ m with
      title := strOrOpt m.title (firstStr (dictGet props "name"))
      published := some d
      excerpt :=
        match firstStr (dictGet props "summary") with
        | some s2 =>
          if !s2.isEmpty && !optStrTruthy m.excerpt then some s2 else m.excerpt
        | Option.none => m.excerpt
      content := extractContentField m.content props }, ?_, rfl⟩
    unfold fill_core_fields_from_entry corePublished
    rw [hpub, hfs]
    simp [hne, hiso]
  · intro cur soup s d hcur hmeta hne hiso
    unfold fallbackPublished
    rw [hcur, hmeta]
    simp [hne, hiso]

/-- Witness for C7: `_parse_dt` turns the naive string
`"2026-02-07T01:02:03"` into an aware UTC datetime, returns the same naive
datetime unchanged when it is passed as a datetime instance, and the mf2
path and the meta fallback path keep the naive value naive. -/
theorem C7_witness :
    (parse_dt (.str "2026-02-07T01:02:03")
        = .ok (some ⟨2026, 2, 7, 1, 2, 3, some 0⟩) ∧
      (toUTCifNaive ⟨2026, 2, 7, 1, 2, 3, Option.none⟩).tz ≠ Option.none) ∧
    parse_dt (.dt ⟨2026, 2, 7, 1, 2, 3, Option.none⟩)
      = .ok (some ⟨2026, 2, 7, 1, 2, 3, Option.none⟩) ∧
    (∃ m2, fill_core_fields_from_entry
        { source := "s", target := "t", direction := .IN }
        [("published", .list [.str "2026-02-07T01:02:03"])] = .ok m2 ∧
      m2.published = some ⟨2026, 2, 7, 1, 2, 3, Option.none⟩) ∧
    fallbackPublished Option.none
        ⟨[], [], Option.none, Option.none, Option.none,
          some "2026-02-07T01:02:03", Option.none, Option.none⟩
      = .ok (some ⟨2026, 2, 7, 1, 2, 3, Option.none⟩) := by
  refine ⟨⟨?_, ?_⟩, ?_, ?_, ?_⟩
  · exact (C7_published_normalization.1 "2026-02-07T01:02:03"
      ⟨2026, 2, 7, 1, 2, 3, Option.none⟩ (by decide) (by decide)).1
  · exact (C7_published_normalization.1 "2026-02-07T01:02:03"
      ⟨2026, 2, 7, 1, 2, 3, Option.none⟩ (by decide) (by decide)).2
  · exact C7_published_normalization.2.1 ⟨2026, 2, 7, 1, 2, 3, Option.none⟩
  · exact C7_published_normalization.2.2.1
      { source := "s", target := "t", direction := .IN }
      [("published", .list [.str "2026-02-07T01:02:03"])]
      "2026-02-07T01:02:03" ⟨2026, 2, 7, 1, 2, 3, Option.none⟩
      rfl (by decide) (by decide) (by decide)
  · exact C7_published_normalization.2.2.2 Option.none
      ⟨[], [], Option.none, Option.none, Option.none,
        some "2026-02-07T01:02:03", Option.none, Option.none⟩
      "2026-02-07T01:02:03" ⟨2026, 2, 7, 1, 2, 3, Option.none⟩
      rfl rfl (by decide) (by decide)

/-! ### Lemmas: the payload pipeline never raises `WebmentionGone` -/

theorem bindNoErrorCont {e a b : Type} (x : Except e a) (g : a → Except e b)
    {err : e} (hg : ∀ v err2, g v ≠ .error err2)
    (h : (x >>= g) = .error err) : x = .error err := by
  cases x with
  | ok v => exact absurd h (hg v err)
  | error e2 =>
    have hred : (Except.error e2 >>= g : Except e b) = Except.error e2 := rfl
    rw [hred] at h
    rw [Except.error.inj h]

theorem corePublished_shape (cur : Option PyDateTime)
    (props : List (String × PyVal)) :
    (∃ v, corePublished cur props = .ok v) ∨
      corePublished cur props
        = .error (.valueError "Invalid isoformat string") := by
  unfold corePublished
  cases cur with
  | some p => exact Or.inl ⟨some p, rfl⟩
  | none =>
    cases hfs : firstStr (dictGet props "published") with
    | none => exact Or.inl ⟨Option.none, rfl⟩
    | some s =>
      by_cases hs : s.isEmpty
      · exact Or.inl ⟨Option.none, by simp [hs]⟩
      · cases hiso : fromisoformat s with
        | some dt => exact Or.inl ⟨some dt, by simp [hs, hiso]⟩
        | none => exact Or.inr (by simp [hs, hiso])

theorem fill_core_error_shape (m : Webmention) (props : List (String × PyVal))
    (err : ParseError) (h : fill_core_fields_from_entry m props = .error err) :
    err = .valueError "Invalid isoformat string" := by
  unfold fill_core_fields_from_entry at h
  have h2 := bindNoErrorCont _ _ (fun v err2 habs => Except.noConfusion habs) h
  rcases corePublished_shape m.published props with ⟨v, hv⟩ | herr
  · rw [hv] at h2
    exact Except.noConfusion h2
  · rw [herr] at h2
    exact (Except.error.inj h2).symm

theorem fill_from_h_entry_error_shape (m : Webmention) (entry : Mf2Entry)
    (t : String) (err : ParseError)
    (h : fill_from_h_entry m entry t = .error err) :
    err = .valueError "Invalid isoformat string" := by
  unfold fill_from_h_entry at h
  have h2 := bindNoErrorCont _ _ (fun v err2 habs => Except.noConfusion habs) h
  exact fill_core_error_shape _ _ _ h2

theorem hEntryStage_error_shape (m : Webmention) (body : FetchedBody)
    (t : String) (err : ParseError) (h : hEntryStage m body t = .error err) :
    err = .valueError "Invalid isoformat string" := by
  unfold hEntryStage at h
  cases hx : extract_h_entry body.mf2Items with
  | some entry =>
    rw [hx] at h
    exact fill_from_h_entry_error_shape _ _ _ _ h
  | none =>
    rw [hx] at h
    exact Except.noConfusion h

theorem fallbackPublished_shape (cur : Option PyDateTime) (soup : Soup) :
    (∃ v, fallbackPublished cur soup = .ok v) ∨
      fallbackPublished cur soup
        = .error (.valueError "Invalid isoformat string") := by
  unfold fallbackPublished
  cases cur with
  | some p => exact Or.inl ⟨some p, rfl⟩
  | none =>
    cases hm : soup.metaPublishedTime with
    | none => exact Or.inl ⟨Option.none, by simp⟩
    | some s =>
      by_cases hs : s.isEmpty
      · exact Or.inl ⟨Option.none, by simp [hs]⟩
      · cases hiso : fromisoformat s with
        | some dt => exact Or.inl ⟨some dt, by simp [hs, hiso]⟩
        | none => exact Or.inr (by simp [hs, hiso])

theorem fill_from_html_fallbacks_error_shape (m : Webmention)
    (body : FetchedBody) (err : ParseError)
    (h : fill_from_html_fallbacks m body = .error err) :
    err = .valueError "Invalid isoformat string" ∨
      err = .libraryError "BeautifulSoup failed" := by
  unfold fill_from_html_fallbacks at h
  cases hsoup : body.soup with
  | none =>
    rw [hsoup] at h
    exact Or.inr (Except.error.inj h).symm
  | some soup =>
    rw [hsoup] at h
    replace h : (fallbackPublished m.published soup >>= _) = Except.error err :=
      h
    have h2 :=
      bindNoErrorCont _ _ (fun v err2 habs => Except.noConfusion habs) h
    rcases fallbackPublished_shape m.published soup with ⟨v, hv⟩ | herr
    · rw [hv] at h2
      exact Except.noConfusion h2
    · rw [herr] at h2
      exact Or.inl (Except.error.inj h2).symm

theorem parse_source_payload_no_gone (m : Webmention) (body : FetchedBody)
    (t a b c : String) :
    parse_source_payload m body t ≠ .error (.gone a b c) := by
  intro h
  unfold parse_source_payload at h
  cases hst : hEntryStage m body t with
  | error err =>
    rw [hst] at h
    replace h : Except.error err = Except.error (ParseError.gone a b c) := h
    have := hEntryStage_error_shape _ _ _ _ hst
    rw [this] at h
    exact ParseError.noConfusion (Except.error.inj h)
  | ok m1 =>
    rw [hst, exceptOkBind] at h
    cases hfb : fill_from_html_fallbacks m1 body with
    | error err =>
      rw [hfb] at h
      replace h : Except.error err = Except.error (ParseError.gone a b c) := h
      rcases fill_from_html_fallbacks_error_shape _ _ _ hfb with h1 | h1 <;>
        · rw [h1] at h
          exact ParseError.noConfusion (Except.error.inj h)
    | ok m2 =>
      rw [hfb, exceptOkBind] at h
      exact Except.noConfusion h

/-- C1: under the preconditions that let `parse` reach the content check
(non-empty source and target, base-URL domain check passing, status not
404/410 and not an error status), (1) the check itself passes exactly when
the target URL appears as an `href` value or `src` value (when the HTML
parsed) or as a raw substring of the body; (2) if the check fails, `parse`
fails with `WebmentionGone(source, target, "Target URL not found in source
content")`; (3) if it passes, no `WebmentionGone` error of any kind is
raised by the rest of `parse`. -/
theorem C1_target_not_found_check (base_url : Option String)
    (src tgt : String) (resp : HttpResponse)
    (hsrc : src.isEmpty = false) (htgt : tgt.isEmpty = false)
    (hbase : optStrTruthy base_url = false ∨
      pyNetloc tgt = pyNetloc (base_url.getD ""))
    (h404 : resp.status_code ≠ 404) (h410 : resp.status_code ≠ 410)
    (hok : resp.status_code < 400) :
    (source_mentions_target resp.body tgt = true ↔
      ((∃ soup, resp.body.soup = some soup ∧
        (soup.hrefValues.contains tgt = true ∨
          soup.srcValues.contains tgt = true)) ∨
        strContains resp.body.raw tgt = true)) ∧
    (source_mentions_target resp.body tgt = false →
      parse base_url (some src) (some tgt) resp
        = .error (.gone src tgt "Target URL not found in source content")) ∧
    (source_mentions_target resp.body tgt = true →
      ∀ a b c, parse base_url (some src) (some tgt) resp
        ≠ .error (.gone a b c)) := by
  have hbase2 : (optStrTruthy base_url &&
      (pyNetloc tgt != pyNetloc (base_url.getD ""))) = false := by
    rcases hbase with hb | hb
    · simp [hb]
    · simp [hb]
  have hbase3 : optStrTruthy base_url = true →
      pyNetloc tgt = pyNetloc (base_url.getD "") := by
    intro hbu
    rcases hbase with hb | hb
    · rw [hbu] at hb
      exact absurd hb (by simp)
    · exact hb
  have hparse : parse base_url (some src) (some tgt) resp =
      (if source_mentions_target resp.body tgt then
        parse_source_payload { source := src, target := tgt, direction := .IN }
          resp.body tgt
      else
        .error (.gone src tgt "Target URL not found in source content")) := by
    unfold parse
    simp only [Option.getD_some]
    by_cases hsm : source_mentions_target resp.body tgt
    · simp [optStrTruthy, hsrc, htgt, h404, h410, Nat.not_le.mpr hok, hsm]
      intro hbu hne
      exact absurd (hbase3 hbu) hne
    · simp [optStrTruthy, hsrc, htgt, h404, h410, Nat.not_le.mpr hok, hsm]
      rw [if_neg (fun hand => hand.2 (hbase3 hand.1))]
      rfl
  refine ⟨?_, ?_, ?_⟩
  · unfold source_mentions_target
    cases hsoup : resp.body.soup with
    | none => simp
    | some soup => simp [hsoup]
  · intro hsm
    rw [hparse, hsm]
    simp
  · intro hsm a b c
    rw [hparse, hsm]
    simp only [if_true]
    exact parse_source_payload_no_gone _ _ _ _ _ _

/-- Witness for C1: with the target present as an `href` value the check
passes and parsing yields a mention, while a body that nowhere carries the
target fails with the tombstone error. -/
theorem C1_witness :
    parse Option.none (some "https://a/s") (some "https://b/t")
        ⟨200, ⟨"", some ⟨["https://b/t"], [], Option.none, Option.none,
          Option.none, Option.none, Option.none, Option.none⟩, some []⟩⟩
      ≠ .error (.gone "https://a/s" "https://b/t"
          "Target URL not found in source content") ∧
    parse Option.none (some "https://a/s") (some "https://b/t")
        ⟨200, ⟨"nothing here", some ⟨[], [], Option.none, Option.none,
          Option.none, Option.none, Option.none, Option.none⟩, some []⟩⟩
      = .error (.gone "https://a/s" "https://b/t"
          "Target URL not found in source content") := by
  constructor
  · exact (C1_target_not_found_check Option.none "https://a/s" "https://b/t"
      ⟨200, ⟨"", some ⟨["https://b/t"], [], Option.none, Option.none,
        Option.none, Option.none, Option.none, Option.none⟩, some []⟩⟩
      rfl rfl (Or.inl rfl) (by decide) (by decide) (by decide)).2.2 (by decide)
      "https://a/s" "https://b/t" "Target URL not found in source content"
  · exact (C1_target_not_found_check Option.none "https://a/s" "https://b/t"
      ⟨200, ⟨"nothing here", some ⟨[], [], Option.none, Option.none,
        Option.none, Option.none, Option.none, Option.none⟩, some []⟩⟩
      rfl rfl (Or.inl rfl) (by decide) (by decide) (by decide)).2.1 (by decide)

end Webmentions
